import Mathlib

/-!
# Verification of the Edge login-tree engine

A shallow embedding of the client-side login subsystem:

* `login.ts` — tree engine (`searchTree`, `updateTree`), reply reconciler
  (`applyLoginReply`), login-tree builder (`makeLoginTree`), sanitizer
  (`sanitizeLoginStash`), auth JSON (`makeAuthJson`), kit protocol
  (`applyKit`), sync (`syncLogin`).
* `login-stash.ts` — `saveStash` and the on-disk stash shape.
* `otp.ts` — `getLoginOtp`, `getStashOtp`.
* `scrypt-pixie.ts` — `calcSnrpForTarget`.
* `util.ts` — `filterObject` (specialised to the fixed field lists used by
  the callers), `softCat`.

Modelling conventions:

* JavaScript objects of the `LoginStash`/`LoginReply` shapes are embedded as
  one record (`StashData`) whose fields are `Option`-valued: `none` stands
  for "key absent or value `undefined`" (the two are indistinguishable to
  every `!= null` test, every spread and `JSON.stringify` in this code).
  The record carries the union of the `LoginStash` and `LoginReply` fields,
  so reply-only fields (`pin2Box`, `pin2KeyBox`, …) are representable and
  their absence from reconciler output is a provable statement.
* Byte strings are `List Nat`; dates are `Nat` timestamps.
* The external AES envelope is symbolic: an `EdgeBox` records the key that
  encrypted it together with its plaintext, and `decrypt` succeeds exactly
  when the presented key matches (a failed MAC check throws in the source,
  and is `Err.decryptFailed` here).
* The external codecs (`base64`, `base58`, `base16`, `utf8`) and `totp` are
  modelled as injective executable encoders; `base64.parse` is the partial
  inverse of the encoder, failing on strings outside its range just as the
  real decoder throws on malformed base64.
* Exceptions become `Except Err`; a function that returns without throwing
  never mutates its inputs (all the embedded code is pure data-building,
  matching the source, which always builds fresh objects).
-/

/-- JavaScript byte strings (`Uint8Array`). -/
abbrev Bytes := List Nat

/-- JavaScript `Date`, as a timestamp. -/
abbrev JsDate := Nat

/-- Errors thrown by the embedded code.  Each constructor corresponds to one
`throw new Error(...)` site (or to a failing external primitive). -/
inductive Err where
  /-- A box failed to decrypt (wrong key / failed MAC) — external `decrypt`. -/
  | decryptFailed
  /-- `base64.parse` threw on a malformed string. -/
  | badBase64
  /-- 'Key integrity violation: No parentBox on child login.' -/
  | keyIntegrity
  /-- 'The server has lost children!' -/
  | serverLostChildren
  /-- 'No server authentication methods on login' (`makeLoginTreeInner`). -/
  | missingAuth
  /-- 'No server authentication methods available' (`makeAuthJson`). -/
  | noAuth
  /-- 'Cannot apply kit: missing login' -/
  | missingLogin
  /-- 'Cannot apply kit: missing username' -/
  | missingUsername
  /-- 'Cannot sync: missing username' -/
  | syncMissingUsername
  /-- 'Cannot save a login without an appId.' -/
  | saveNoAppId
  /-- 'Cannot save a login without a loginId.' -/
  | saveNoLoginId
  /-- 'Cannot save a login without a username.' -/
  | saveNoUsername
  /-- 'Invalid loginId' (decodes to the wrong byte count). -/
  | saveBadLoginId
  /-- An injected I/O or network failure (disk writes and `loginFetch` are
  external; theorems quantify over their outcomes). -/
  | ioFailure (code : Nat)
  deriving DecidableEq, Repr

/-- Model of the external AES-CBC envelope: the key that produced the box
together with the plaintext it protects. -/
structure EdgeBox where
  boxKey : Bytes
  plain : Bytes
  deriving DecidableEq, Repr

/-- External `decrypt(box, key)`: succeeds exactly when the key matches. -/
def decrypt (box : EdgeBox) (key : Bytes) : Except Err Bytes :=
  if box.boxKey = key then .ok box.plain else .error .decryptFailed

/-- Decimal digits of the byte values, joined by a separator character
(the shared shape of the injective codec models below). -/
def encodeSep (sep : Char) : Bytes → List Char
  | [] => []
  | [n] => Nat.toDigits 10 n
  | n :: rest => Nat.toDigits 10 n ++ sep :: encodeSep sep rest

/-- Model of external `base64.stringify` (an injective encoder). -/
def b64encode (bs : Bytes) : String :=
  String.mk (encodeSep ',' bs)

/-- Split a character list at commas. -/
def splitComma : List Char → List (List Char)
  | [] => [[]]
  | c :: cs =>
    match splitComma cs with
    | g :: gs => if c = ',' then [] :: g :: gs else (c :: g) :: gs
    | [] => if c = ',' then [[], []] else [[c]]

def digitsToNatAux (acc : Nat) : List Char → Option Nat
  | [] => some acc
  | c :: cs =>
    if c.isDigit then digitsToNatAux (acc * 10 + (c.toNat - 48)) cs
    else none

/-- A nonempty all-digit character group, as a number. -/
def digitsToNat : List Char → Option Nat
  | [] => none
  | cs => digitsToNatAux 0 cs

/-- Model of external `base64.parse`: partial inverse of `b64encode`,
failing (`none` = thrown exception) on strings outside its range. -/
def b64parse (s : String) : Option Bytes :=
  (splitComma s.data).mapM digitsToNat

/-- Model of external `base58.stringify` (an injective encoder). -/
def b58encode (bs : Bytes) : String :=
  String.mk (encodeSep '.' bs)

/-- Model of external `base16.stringify` (an injective encoder). -/
def b16encode (bs : Bytes) : String :=
  String.mk (encodeSep ';' bs)

/-- Model of external `utf8.parse`. -/
def utf8parse (s : String) : Bytes :=
  s.data.map Char.toNat

/-- Model of the external UTF-8 decoder used by `decryptText`. -/
def bytesToText (bs : Bytes) : String :=
  String.mk (encodeSep ':' bs)

/-- External `decryptText(box, key)` = utf8 decode of `decrypt`. -/
def decryptText (box : EdgeBox) (key : Bytes) : Except Err String :=
  (decrypt box key).map bytesToText

/-- Model of external `hmacSha256(data, key)` (an opaque keyed hash). -/
def hmacSha256 (data key : Bytes) : Bytes :=
  data.length :: (data ++ key)

/-- Model of external `totp(key)` (RFC 6238; its output is a short numeric
code, in particular never equal to a key containing a letter). -/
def totp (key : String) : String :=
  "totp." ++ key

/-- Edge-format scrypt parameters (`asEdgeSnrp`). -/
structure EdgeSnrp where
  salt_hex : String
  n : Int
  r : Int
  p : Int
  deriving DecidableEq, Repr

/-- Modelled from the spec: `keys.ts` (`makeKeyInfo`, `mergeKeyInfos`,
`fixWalletInfo`, `makeAccountType`) is not among the sources; §3 invariant 6
says wallet infos carry a canonical id derived from type and keys, and merge
by unioning fields, preferring existing ones. -/
structure KeyInfo where
  canonicalId : String
  accountType : String
  keyFields : List (String × String)
  deriving DecidableEq, Repr

/-- Modelled from the spec: union of JSON fields, preferring existing
fields when both present (§3 invariant 6). -/
def unionFields (a b : List (String × String)) : List (String × String) :=
  a ++ b.filter fun kv => a.all fun kv2 => kv2.1 ≠ kv.1

/-- Modelled from the spec: fold that deduplicates by canonical id. -/
def insertKeyInfo (acc : List KeyInfo) (ki : KeyInfo) : List KeyInfo :=
  if acc.any fun k => k.canonicalId = ki.canonicalId then
    acc.map fun k =>
      if k.canonicalId = ki.canonicalId then
        { k with keyFields := unionFields k.keyFields ki.keyFields }
      else k
  else acc ++ [ki]

/-- Modelled from the spec: `mergeKeyInfos` deduplicates by canonical
wallet id (§3 invariant 6). -/
def mergeKeyInfos (infos : List KeyInfo) : List KeyInfo :=
  infos.foldl insertKeyInfo []

/-- Modelled from the spec: `fixWalletInfo` is an external normalisation
pass; no claim inspects its output, so it is the identity here. -/
def fixWalletInfo (ki : KeyInfo) : KeyInfo := ki

/-- Modelled from the spec: account type computed from the appId (§4.3
step 8). -/
def makeAccountType (appId : Option String) : String :=
  "account-repo:" ++ appId.getD ""

/-- Modelled from the spec: `makeKeyInfo(type, keys, idKey)` derives the
canonical id from the key material. -/
def makeKeyInfo (accountType : String) (keyFields : List (String × String))
    (idKey : Bytes) : KeyInfo :=
  { canonicalId := b64encode (hmacSha256 idKey (utf8parse accountType)),
    accountType := accountType, keyFields := keyFields }

/-- Modelled from the spec: `JSON.parse` of a decrypted wallet-info text
(§4.3 step 9); the contents are opaque to every claim. -/
def parseWalletInfo (s : String) : KeyInfo :=
  { canonicalId := s, accountType := s, keyFields := [] }

/-- The scalar fields of a `LoginStash` / `LoginReply` node (the union of
both interfaces; see the modelling conventions above).  `none` = the key is
absent or holds `undefined`. -/
structure StashData where
  appId : Option String := none
  created : Option JsDate := none
  lastLogin : Option JsDate := none
  loginId : Option String := none
  userId : Option String := none
  username : Option String := none
  otpKey : Option String := none
  otpResetDate : Option JsDate := none
  otpTimeout : Option Nat := none
  voucherId : Option String := none
  voucherAuth : Option String := none
  loginAuthBox : Option EdgeBox := none
  parentBox : Option EdgeBox := none
  passwordAuthBox : Option EdgeBox := none
  passwordAuthSnrp : Option EdgeSnrp := none
  passwordBox : Option EdgeBox := none
  passwordKeySnrp : Option EdgeSnrp := none
  pin2Box : Option EdgeBox := none
  pin2Key : Option String := none
  pin2KeyBox : Option EdgeBox := none
  pin2TextBox : Option EdgeBox := none
  question2Box : Option EdgeBox := none
  recovery2Box : Option EdgeBox := none
  recovery2Key : Option String := none
  recovery2KeyBox : Option EdgeBox := none
  keyBoxes : Option (List EdgeBox) := none
  mnemonicBox : Option EdgeBox := none
  rootKeyBox : Option EdgeBox := none
  syncKeyBox : Option EdgeBox := none
  deriving DecidableEq, Repr

/-- A `LoginStash` / `LoginReply` tree node: scalar fields plus the
recursive `children` list (`none` = no `children` key). -/
inductive StashNode where
  | mk (data : StashData) (children : Option (List StashNode))

def StashNode.data : StashNode → StashData
  | .mk d _ => d

def StashNode.children : StashNode → Option (List StashNode)
  | .mk _ cs => cs

/-- `stash.children != null ? stash.children : []`, the defaulting used all
over `login.ts`. -/
def StashNode.childrenD : StashNode → List StashNode
  | .mk _ cs => cs.getD []

mutual

def StashNode.beq : StashNode → StashNode → Bool
  | .mk d1 none, .mk d2 none => d1 = d2
  | .mk d1 (some l1), .mk d2 (some l2) => d1 = d2 && StashNode.beqList l1 l2
  | _, _ => false

def StashNode.beqList : List StashNode → List StashNode → Bool
  | [], [] => true
  | a :: as, b :: bs => StashNode.beq a b && StashNode.beqList as bs
  | _, _ => false

end

mutual

theorem StashNode.stashBeq_iff : ∀ a b : StashNode, StashNode.beq a b = true ↔ a = b
  | .mk d1 none, .mk d2 none => by simp [StashNode.beq]
  | .mk d1 none, .mk d2 (some _) => by simp [StashNode.beq]
  | .mk d1 (some _), .mk d2 none => by simp [StashNode.beq]
  | .mk d1 (some l1), .mk d2 (some l2) => by
    simp [StashNode.beq, StashNode.stashBeqList_iff l1 l2]

theorem StashNode.stashBeqList_iff :
    ∀ a b : List StashNode, StashNode.beqList a b = true ↔ a = b
  | [], [] => by simp [StashNode.beqList]
  | [], _ :: _ => by simp [StashNode.beqList]
  | _ :: _, [] => by simp [StashNode.beqList]
  | a :: as, b :: bs => by
    simp [StashNode.beqList, StashNode.stashBeq_iff a b, StashNode.stashBeqList_iff as bs]

end

instance : DecidableEq StashNode := fun a b =>
  decidable_of_iff (StashNode.beq a b = true) (StashNode.stashBeq_iff a b)

/-- The scalar fields of an in-memory `LoginTree` node.  Fields that the
outer clone of `makeLoginTree` does not copy are `Option`-valued for the
same reason as in `StashData`. -/
structure LoginData where
  appId : Option String := none
  created : Option JsDate := none
  lastLogin : Option JsDate := none
  loginId : Option String := none
  otpKey : Option String := none
  otpResetDate : Option JsDate := none
  otpTimeout : Option Nat := none
  userId : Option String := none
  username : Option String := none
  loginKey : Option Bytes := none
  loginAuth : Option Bytes := none
  passwordAuth : Option Bytes := none
  pin : Option String := none
  pin2Key : Option Bytes := none
  recovery2Key : Option Bytes := none
  keyInfos : Option (List KeyInfo) := none
  deriving DecidableEq, Repr

/-- An in-memory `LoginTree` node; `children` is always an array in the
source type, so it is a plain list here. -/
inductive LoginNode where
  | mk (data : LoginData) (children : List LoginNode)

def LoginNode.data : LoginNode → LoginData
  | .mk d _ => d

def LoginNode.children : LoginNode → List LoginNode
  | .mk _ cs => cs

mutual

def LoginNode.beq : LoginNode → LoginNode → Bool
  | .mk d1 l1, .mk d2 l2 => d1 = d2 && LoginNode.beqList l1 l2

def LoginNode.beqList : List LoginNode → List LoginNode → Bool
  | [], [] => true
  | a :: as, b :: bs => LoginNode.beq a b && LoginNode.beqList as bs
  | _, _ => false

end

mutual

theorem LoginNode.loginBeq_iff : ∀ a b : LoginNode, LoginNode.beq a b = true ↔ a = b
  | .mk d1 l1, .mk d2 l2 => by
    simp [LoginNode.beq, LoginNode.loginBeqList_iff l1 l2]

theorem LoginNode.loginBeqList_iff :
    ∀ a b : List LoginNode, LoginNode.beqList a b = true ↔ a = b
  | [], [] => by simp [LoginNode.beqList]
  | [], _ :: _ => by simp [LoginNode.beqList]
  | _ :: _, [] => by simp [LoginNode.beqList]
  | a :: as, b :: bs => by
    simp [LoginNode.beqList, LoginNode.loginBeq_iff a b, LoginNode.loginBeqList_iff as bs]

end

instance : DecidableEq LoginNode := fun a b =>
  decidable_of_iff (LoginNode.beq a b = true) (LoginNode.loginBeq_iff a b)

/-! ## Tree engine (`login.ts` `searchTree` / `updateTree` / `cloneNode`)

The source functions are generic over duck-typed nodes; here each
instantiation used by a claim is written out at its concrete node types,
mirroring the generic body: test the predicate at the node, else rebuild
every child recursively and re-assemble with the clone callback (the
default clone keeps all fields and substitutes the children list). -/

mutual

/-- `searchTree` at `LoginTree` nodes: pre-order depth-first first match. -/
def searchTree (pred : LoginNode → Bool) : LoginNode → Option LoginNode
  | .mk d cs =>
    if pred (.mk d cs) then some (.mk d cs)
    else searchTreeList pred cs

def searchTreeList (pred : LoginNode → Bool) : List LoginNode → Option LoginNode
  | [] => none
  | c :: cs =>
    match searchTree pred c with
    | some out => some out
    | none => searchTreeList pred cs

end

/-- Default `cloneNode`: spread all fields, substitute the children. -/
def cloneNodeStash (node : StashNode) (children : List StashNode) : StashNode :=
  .mk node.data (some children)

mutual

/-- `updateTree` at `LoginStash` nodes with a pure update (used by
`sanitizeLoginStash` and by the stash half of `applyKit`). -/
def updateTreeStash (pred : StashNode → Bool) (update : StashNode → StashNode)
    (clone : StashNode → List StashNode → StashNode) : StashNode → StashNode
  | .mk d cs =>
    if pred (.mk d cs) then update (.mk d cs)
    else
      match cs with
      | none => clone (.mk d cs) []
      | some l => clone (.mk d cs) (updateTreeStashList pred update clone l)

def updateTreeStashList (pred : StashNode → Bool) (update : StashNode → StashNode)
    (clone : StashNode → List StashNode → StashNode) :
    List StashNode → List StashNode
  | [] => []
  | c :: cs =>
    updateTreeStash pred update clone c :: updateTreeStashList pred update clone cs

end

mutual

/-- `updateTree` at `LoginStash` nodes with a throwing update and the
default clone (the `applyLoginReply` instantiation). -/
def updateTreeStashE (pred : StashNode → Bool)
    (update : StashNode → Except Err StashNode) : StashNode → Except Err StashNode
  | .mk d cs =>
    if pred (.mk d cs) then update (.mk d cs)
    else
      match cs with
      | none => .ok (cloneNodeStash (.mk d cs) [])
      | some l => do
        let children ← updateTreeStashEList pred update l
        .ok (cloneNodeStash (.mk d cs) children)

def updateTreeStashEList (pred : StashNode → Bool)
    (update : StashNode → Except Err StashNode) :
    List StashNode → Except Err (List StashNode)
  | [] => .ok []
  | c :: cs => do
    let c2 ← updateTreeStashE pred update c
    let cs2 ← updateTreeStashEList pred update cs
    .ok (c2 :: cs2)

end

mutual

/-- `updateTree` from `LoginStash` nodes to `LoginTree` nodes with a
throwing update and a custom clone (the `makeLoginTree` instantiation). -/
def updateTreeMakeLogin (pred : StashNode → Bool)
    (update : StashNode → Except Err LoginNode)
    (clone : StashNode → List LoginNode → LoginNode) :
    StashNode → Except Err LoginNode
  | .mk d cs =>
    if pred (.mk d cs) then update (.mk d cs)
    else
      match cs with
      | none => .ok (clone (.mk d cs) [])
      | some l => do
        let children ← updateTreeMakeLoginList pred update clone l
        .ok (clone (.mk d cs) children)

def updateTreeMakeLoginList (pred : StashNode → Bool)
    (update : StashNode → Except Err LoginNode)
    (clone : StashNode → List LoginNode → LoginNode) :
    List StashNode → Except Err (List LoginNode)
  | [] => .ok []
  | c :: cs => do
    let c2 ← updateTreeMakeLogin pred update clone c
    let cs2 ← updateTreeMakeLoginList pred update clone cs
    .ok (c2 :: cs2)

end

mutual

/-- `updateTree` at `LoginTree` nodes with a pure update and the default
clone (the login half of `applyKit`). -/
def updateTreeLogin (pred : LoginNode → Bool) (update : LoginNode → LoginNode) :
    LoginNode → LoginNode
  | .mk d cs =>
    if pred (.mk d cs) then update (.mk d cs)
    else .mk d (updateTreeLoginList pred update cs)

def updateTreeLoginList (pred : LoginNode → Bool) (update : LoginNode → LoginNode) :
    List LoginNode → List LoginNode
  | [] => []
  | c :: cs => updateTreeLogin pred update c :: updateTreeLoginList pred update cs

end

/-! ## Reply reconciler (`applyLoginReplyInner` / `applyLoginReply`) -/

/-- `filterObject(loginReply, [...])` over the fixed allowlist of
`applyLoginReplyInner` (`util.ts` `filterObject`, specialised: the selected
fields are copied, every other field of the fresh object is absent). -/
def filterObjectReplyAllowlist (rd : StashData) : StashData :=
  { appId := rd.appId
    created := rd.created
    loginId := rd.loginId
    loginAuthBox := rd.loginAuthBox
    userId := rd.userId
    otpKey := rd.otpKey
    otpResetDate := rd.otpResetDate
    otpTimeout := rd.otpTimeout
    parentBox := rd.parentBox
    passwordAuthBox := rd.passwordAuthBox
    passwordAuthSnrp := rd.passwordAuthSnrp
    passwordBox := rd.passwordBox
    passwordKeySnrp := rd.passwordKeySnrp
    pin2TextBox := rd.pin2TextBox
    mnemonicBox := rd.mnemonicBox
    rootKeyBox := rd.rootKeyBox
    syncKeyBox := rd.syncKeyBox }

/-- 'Store the pin key unencrypted': the value `out.pin2Key` ends up with —
the decrypted `pin2KeyBox` (when present) base64-encoded, else the field is
left absent. -/
def pin2KeyDecrypt (b : Option EdgeBox) (loginKey : Bytes) :
    Except Err (Option String) :=
  match b with
  | none => .ok none
  | some box =>
    decrypt box loginKey >>= fun pin2Key =>
      .ok (some (b64encode pin2Key))

/-- 'Store the recovery key unencrypted': same for `recovery2KeyBox`. -/
def recovery2KeyDecrypt (b : Option EdgeBox) (loginKey : Bytes) :
    Except Err (Option String) :=
  match b with
  | none => .ok none
  | some box =>
    decrypt box loginKey >>= fun recovery2Key =>
      .ok (some (b64encode recovery2Key))

mutual

/-- `applyLoginReplyInner(stash, loginKey, loginReply)`: copy the allowlist,
preserve client-only data, decrypt the pin2/recovery2 key boxes, overwrite
`keyBoxes`, and recurse into children (erroring when the server lost
children or a child lacks its `parentBox`). -/
def applyLoginReplyInner (stash : StashNode) (loginKey : Bytes)
    (r : StashNode) : Except Err StashNode :=
  match r with
  | .mk rd rcs =>
    -- Copy common items:
    let d0 := filterObjectReplyAllowlist rd
    -- Store the pin / recovery keys unencrypted:
    pin2KeyDecrypt rd.pin2KeyBox loginKey >>= fun pin2KeyVal =>
    recovery2KeyDecrypt rd.recovery2KeyBox loginKey >>= fun recovery2KeyVal =>
    -- Preserve client-only data; overwrite `pin2Key`, `recovery2Key` and
    -- `keyBoxes` (the field assignments of the source, folded into the
    -- resulting record):
    let d4 := { d0 with
      lastLogin := match stash.data.lastLogin with
        | some t => some t
        | none => d0.lastLogin
      username := match stash.data.username with
        | some u => some u
        | none => d0.username
      userId := match stash.data.userId with
        | some u => some u
        | none => d0.userId
      pin2Key := pin2KeyVal
      recovery2Key := recovery2KeyVal
      keyBoxes := some (rd.keyBoxes.getD []) }
    -- Recurse into children:
    let stashChildren := stash.childrenD
    if stashChildren.length > (rcs.getD []).length then
      .error .serverLostChildren
    else
      applyLoginReplyChildrenOpt loginKey stashChildren rcs >>= fun children =>
      .ok (.mk d4 (some children))

def applyLoginReplyChildrenOpt (loginKey : Bytes) (sc : List StashNode) :
    Option (List StashNode) → Except Err (List StashNode)
  | none => .ok []
  | some rc => applyLoginReplyChildren loginKey sc rc

/-- The indexed map over `replyChildren`: pair each reply child with the
same-index stash child, or synthesise a minimal { appId, loginId }
stash when the stash list is shorter. -/
def applyLoginReplyChildren (loginKey : Bytes) (sc : List StashNode) :
    List StashNode → Except Err (List StashNode)
  | [] => .ok []
  | rchild :: rs =>
    match rchild.data.parentBox with
    | none => .error .keyIntegrity
    | some box => do
      let childKey ← decrypt box loginKey
      match sc with
      | schild :: ss => do
        let c ← applyLoginReplyInner schild childKey rchild
        let cs ← applyLoginReplyChildren loginKey ss rs
        .ok (c :: cs)
      | [] => do
        let c ← applyLoginReplyInner
          (.mk { appId := rchild.data.appId, loginId := rchild.data.loginId } none)
          childKey rchild
        let cs ← applyLoginReplyChildren loginKey [] rs
        .ok (c :: cs)

end

/-- `applyLoginReply(stashTree, loginKey, loginReply)`: replace the stash
node whose `appId` matches the reply with the reconciled node. -/
def applyLoginReply (stashTree : StashNode) (loginKey : Bytes)
    (loginReply : StashNode) : Except Err StashNode :=
  updateTreeStashE
    (fun stash => stash.data.appId == loginReply.data.appId)
    (fun stash => applyLoginReplyInner stash loginKey loginReply)
    stashTree

/-! ## Login tree builder (`makeLoginTreeInner` / `makeLoginTree`) -/

/-- The map over `keyBoxes`: each box decrypts to a wallet-info JSON text. -/
def keyInfosFromBoxes (loginKey : Bytes) (boxes : List EdgeBox) :
    Except Err (List KeyInfo) :=
  boxes.mapM fun box => (decryptText box loginKey).map parseWalletInfo

/-- 'Server authentication': decrypt `loginAuthBox` when present. -/
def loginAuthStep (b : Option EdgeBox) (loginKey : Bytes) (login : LoginData) :
    Except Err LoginData :=
  match b with
  | none => .ok login
  | some box =>
    decrypt box loginKey >>= fun loginAuth =>
      .ok { login with loginAuth := some loginAuth }

/-- 'Server authentication': decrypt `passwordAuthBox` when present,
defaulting `userId` to the node's `loginId` first. -/
def passwordAuthStep (b : Option EdgeBox) (loginKey : Bytes)
    (stashLoginId : Option String) (login : LoginData) : Except Err LoginData :=
  match b with
  | none => .ok login
  | some box =>
    let login1b :=
      if login.userId = none then { login with userId := stashLoginId }
      else login
    decrypt box loginKey >>= fun passwordAuth =>
      .ok { login1b with passwordAuth := some passwordAuth }

/-- 'PIN v2': decode the plaintext-cached `pin2Key` when present. -/
def pin2KeyParseStep (s : Option String) (login : LoginData) :
    Except Err LoginData :=
  match s with
  | none => .ok login
  | some str =>
    match b64parse str with
    | none => .error .badBase64
    | some bs => .ok { login with pin2Key := some bs }

/-- 'PIN v2': decrypt the pin text when present. -/
def pinTextStep (b : Option EdgeBox) (loginKey : Bytes) (login : LoginData) :
    Except Err LoginData :=
  match b with
  | none => .ok login
  | some box =>
    decryptText box loginKey >>= fun pin =>
      .ok { login with pin := some pin }

/-- 'Recovery v2': decode the plaintext-cached `recovery2Key`. -/
def recovery2KeyParseStep (s : Option String) (login : LoginData) :
    Except Err LoginData :=
  match s with
  | none => .ok login
  | some str =>
    match b64parse str with
    | none => .error .badBase64
    | some bs => .ok { login with recovery2Key := some bs }

/-- 'BitID wallet': when both boxes are present, emit the legacy
`wallet:bitid` info. -/
def bitidStep (mb rb : Option EdgeBox) (loginKey : Bytes) :
    Except Err (List KeyInfo) :=
  match mb, rb with
  | some mnemonicBox, some rootKeyBox =>
    decrypt rootKeyBox loginKey >>= fun rootKey =>
      let infoKey := hmacSha256 rootKey (utf8parse "infoKey")
      decryptText mnemonicBox infoKey >>= fun mnemonic =>
        .ok [makeKeyInfo "wallet:bitid"
          [("mnemonic", mnemonic), ("rootKey", b64encode rootKey)] rootKey]
  | _, _ => .ok ([] : List KeyInfo)

/-- 'Account settings': when `syncKeyBox` is present, append the account
repo info. -/
def syncKeyStep (b : Option EdgeBox) (loginKey : Bytes) (appId : Option String)
    (legacy : List KeyInfo) : Except Err (List KeyInfo) :=
  match b with
  | none => .ok legacy
  | some box =>
    decrypt box loginKey >>= fun syncKey =>
      let accountType := makeAccountType appId
      .ok (legacy ++ [makeKeyInfo accountType
        [("syncKey", b64encode syncKey), ("dataKey", b64encode loginKey)]
        loginKey])

mutual

/-- `makeLoginTreeInner(stash, loginKey)`: decrypt one stash node (and its
subtree) into an in-memory login node.  `now` stands for the impure
`new Date()` default of `lastLogin`. -/
def makeLoginTreeInner (stash : StashNode) (loginKey : Bytes) (now : JsDate) :
    Except Err LoginNode :=
  match stash with
  | .mk d cs =>
    let login0 : LoginData :=
      { appId := d.appId
        created := d.created
        lastLogin := some (d.lastLogin.getD now)
        loginId := d.loginId
        otpKey := d.otpKey
        otpResetDate := d.otpResetDate
        otpTimeout := d.otpTimeout
        userId := d.userId
        username := d.username
        loginKey := some loginKey
        keyInfos := some [] }
    -- Server authentication:
    loginAuthStep d.loginAuthBox loginKey login0 >>= fun login1 =>
    passwordAuthStep d.passwordAuthBox loginKey d.loginId login1 >>= fun login2 =>
    if login2.loginAuth = none ∧ login2.passwordAuth = none then
      .error .missingAuth
    else
      -- PIN v2:
      pin2KeyParseStep d.pin2Key login2 >>= fun login3 =>
      pinTextStep d.pin2TextBox loginKey login3 >>= fun login4 =>
      -- Recovery v2:
      recovery2KeyParseStep d.recovery2Key login4 >>= fun login5 =>
      -- BitID wallet:
      bitidStep d.mnemonicBox d.rootKeyBox loginKey >>= fun legacy1 =>
      -- Account settings:
      syncKeyStep d.syncKeyBox loginKey login2.appId legacy1 >>= fun legacy2 =>
      -- Keys:
      keyInfosFromBoxes loginKey (d.keyBoxes.getD []) >>= fun parsed =>
      let keyInfos := (mergeKeyInfos (legacy2 ++ parsed)).map fixWalletInfo
      let login6 := { login5 with keyInfos := some keyInfos }
      -- Recurse into children:
      makeLoginTreeChildrenOpt loginKey now cs >>= fun children =>
      .ok (.mk login6 children)

def makeLoginTreeChildrenOpt (loginKey : Bytes) (now : JsDate) :
    Option (List StashNode) → Except Err (List LoginNode)
  | none => .ok []
  | some l => makeLoginTreeChildren loginKey now l

def makeLoginTreeChildren (loginKey : Bytes) (now : JsDate) :
    List StashNode → Except Err (List LoginNode)
  | [] => .ok []
  | child :: rest =>
    match child.data.parentBox with
    | none => .error .keyIntegrity
    | some box => do
      let childKey ← decrypt box loginKey
      let c ← makeLoginTreeInner child childKey now
      let cs ← makeLoginTreeChildren loginKey now rest
      .ok (c :: cs)

end

/-- `filterObject(stash, ['username', 'appId', 'loginId'])`, the projection
used by the outer clones of `makeLoginTree` and `sanitizeLoginStash`. -/
def filterObjectStashHeader (d : StashData) : StashData :=
  { username := d.username, appId := d.appId, loginId := d.loginId }

/-- `makeLoginTree(stashTree, loginKey, appId)`: decrypt the node whose
`appId` matches; every node outside that subtree keeps only
`username / appId / loginId` plus its rebuilt children. -/
def makeLoginTree (stashTree : StashNode) (loginKey : Bytes) (appId : String)
    (now : JsDate) : Except Err LoginNode :=
  updateTreeMakeLogin
    (fun stash => stash.data.appId == some appId)
    (fun stash => makeLoginTreeInner stash loginKey now)
    (fun stash children =>
      let h := filterObjectStashHeader stash.data
      .mk { username := h.username, appId := h.appId, loginId := h.loginId }
        children)
    stashTree

/-! ## Sanitizer (`sanitizeLoginStash`) -/

/-- `sanitizeLoginStash(stashTree, appId)`: the matching subtree is
returned verbatim; every other node is reduced to
`username / appId / loginId / children`. -/
def sanitizeLoginStash (stashTree : StashNode) (appId : String) : StashNode :=
  updateTreeStash
    (fun stash => stash.data.appId == some appId)
    (fun stash => stash)
    (fun stash children => .mk (filterObjectStashHeader stash.data) (some children))
    stashTree

/-! ## OTP helpers (`otp.ts`) -/

/-- The login options fields consumed by `getStashOtp`. -/
structure EdgeAccountOptions where
  otp : Option String := none
  otpKey : Option String := none
  now : Option JsDate := none

/-- `getLoginOtp(login)`: the current TOTP of a logged-in account. -/
def getLoginOtp (login : LoginNode) : Option String :=
  login.data.otpKey.map totp

/-- `/[0-9]+/.test(otp)`: the regex is unanchored, so it tests for at least
one ASCII digit anywhere in the string. -/
def hasDigit (s : String) : Bool :=
  s.data.any fun c => c.isDigit

/-- `getStashOtp(stash, opts)`: the current OTP from either the disk
storage or the login options. -/
def getStashOtp (stash : StashNode) (opts : EdgeAccountOptions) : Option String :=
  let otp := opts.otp
  let otpKey := match opts.otpKey with
    | some k => some k
    | none => stash.data.otpKey
  match otp with
  | some o =>
    if hasDigit o ∧ o.length < 16 then some o
    else some (totp o)
  | none => otpKey.map totp

/-! ## Auth JSON (`makeAuthJson`) -/

/-- A v2 login request (the fields this subsystem sets). -/
structure LoginRequest where
  loginId : Option String := none
  userId : Option String := none
  loginAuth : Option String := none
  passwordAuth : Option String := none
  otp : Option String := none
  payload : Option Nat := none
  deriving DecidableEq, Repr

/-- `makeAuthJson(login)`: prefer `loginAuth`, else `passwordAuth`, else
fail with `NoAuth`. -/
def makeAuthJson (login : LoginNode) : Except Err LoginRequest :=
  match login.data.loginAuth with
  | some loginAuth =>
    .ok { loginId := login.data.loginId
          loginAuth := some (b64encode loginAuth)
          otp := getLoginOtp login }
  | none =>
    match login.data.passwordAuth with
    | some passwordAuth =>
      .ok { userId := login.data.userId
            passwordAuth := some (b64encode passwordAuth)
            otp := getLoginOtp login }
    | none => .error .noAuth

/-! ## Stash store (`login-stash.ts` `saveStash`)

The disklet is a path-keyed text store.  `JSON.stringify` of a stash tree
is injective on the values this code writes, so the disk is modelled as a
map from paths to stash trees; `setText` is a parameter so that theorems
can quantify over disk-write outcomes (the real `disklet.setText` may
reject). -/

/-- The path-keyed store behind `io.disklet`. -/
abbrev Disk := List (String × StashNode)

/-- Redux actions dispatched by the stash store. -/
inductive LoginEvent where
  | loginStashSaved (stash : StashNode)
  | loginStashDeleted (username : String)

/-- A whole-file write to the store. -/
def diskSet (disk : Disk) (path : String) (v : StashNode) : Disk :=
  (disk.filter fun kv => kv.1 ≠ path) ++ [(path, v)]

/-- The behaviour of `io.disklet.setText`, supplied by the environment. -/
abbrev SetText := Disk → String → StashNode → Except Err Disk

/-- A disklet whose writes always succeed. -/
def reliableSetText : SetText := fun disk path v => .ok (diskSet disk path v)

/-- `saveStash(ai, stashTree)`: validate the root (`appId` is `''`,
`loginId` present and decoding to 32 bytes, `username` present), write the
whole serialisation to `logins/<base58(loginId)>.json`, then dispatch
`LOGIN_STASH_SAVED`. -/
def saveStash (setText : SetText) (disk : Disk) (stashTree : StashNode) :
    Except Err (Disk × LoginEvent) :=
  if stashTree.data.appId ≠ some "" then .error .saveNoAppId
  else if stashTree.data.loginId = none then .error .saveNoLoginId
  else if stashTree.data.username = none then .error .saveNoUsername
  else
    match b64parse (stashTree.data.loginId.getD "") with
    | none => .error .badBase64
    | some loginId =>
      if loginId.length ≠ 32 then .error .saveBadLoginId
      else do
        let disk2 ← setText disk ("logins/" ++ b58encode loginId ++ ".json") stashTree
        .ok (disk2, .loginStashSaved stashTree)

/-! ## Kit protocol (`applyKit`) and sync (`syncLogin`)

`kit.login` and `kit.stash` are partial objects spread over the target
node.  A spread distinguishes "key absent" (keep the old value) from "key
present with value `undefined`" (overwrite with `undefined`): patches are
therefore records of `Option (Option _)` fields.  `children`, `keyBoxes`
and `keyInfos` are overridden explicitly after the spread in the source,
so the patch carries them as plain optional lists consumed by `softCat` /
`mergeKeyInfos`. -/

/-- `softCat(a, b)` from `util.ts` at two possibly-missing lists. -/
def softCat (xs ys : Option (List α)) : List α :=
  xs.getD [] ++ ys.getD []

/-- One field of a spread: absent keeps the old value, present overwrites
(possibly with `undefined`). -/
def patchField (old : Option α) : Option (Option α) → Option α
  | none => old
  | some v => v

/-- The partial `LoginTree` object of a kit (`kit.login`). -/
structure LoginPatch where
  appId : Option (Option String) := none
  created : Option (Option JsDate) := none
  lastLogin : Option (Option JsDate) := none
  loginId : Option (Option String) := none
  otpKey : Option (Option String) := none
  otpResetDate : Option (Option JsDate) := none
  otpTimeout : Option (Option Nat) := none
  userId : Option (Option String) := none
  username : Option (Option String) := none
  loginKey : Option (Option Bytes) := none
  loginAuth : Option (Option Bytes) := none
  passwordAuth : Option (Option Bytes) := none
  pin : Option (Option String) := none
  pin2Key : Option (Option Bytes) := none
  recovery2Key : Option (Option Bytes) := none
  children : Option (List LoginNode) := none
  keyInfos : Option (List KeyInfo) := none

/-- The partial `LoginStash` object of a kit (`kit.stash`). -/
structure StashPatch where
  appId : Option (Option String) := none
  created : Option (Option JsDate) := none
  lastLogin : Option (Option JsDate) := none
  loginId : Option (Option String) := none
  userId : Option (Option String) := none
  username : Option (Option String) := none
  otpKey : Option (Option String) := none
  otpResetDate : Option (Option JsDate) := none
  otpTimeout : Option (Option Nat) := none
  voucherId : Option (Option String) := none
  voucherAuth : Option (Option String) := none
  loginAuthBox : Option (Option EdgeBox) := none
  parentBox : Option (Option EdgeBox) := none
  passwordAuthBox : Option (Option EdgeBox) := none
  passwordAuthSnrp : Option (Option EdgeSnrp) := none
  passwordBox : Option (Option EdgeBox) := none
  passwordKeySnrp : Option (Option EdgeSnrp) := none
  pin2Box : Option (Option EdgeBox) := none
  pin2Key : Option (Option String) := none
  pin2KeyBox : Option (Option EdgeBox) := none
  pin2TextBox : Option (Option EdgeBox) := none
  question2Box : Option (Option EdgeBox) := none
  recovery2Box : Option (Option EdgeBox) := none
  recovery2Key : Option (Option String) := none
  recovery2KeyBox : Option (Option EdgeBox) := none
  mnemonicBox : Option (Option EdgeBox) := none
  rootKeyBox : Option (Option EdgeBox) := none
  syncKeyBox : Option (Option EdgeBox) := none
  children : Option (List StashNode) := none
  keyBoxes : Option (List EdgeBox) := none

/-- A login kit: mutation bundle for server, memory and disk. -/
structure LoginKit where
  loginId : String
  login : LoginPatch := {}
  server : Option Nat := none
  serverMethod : Option String := none
  serverPath : String := ""
  stash : StashPatch := {}

/-- The spread of `kit.login`'s scalar fields over a login node's data. -/
def spreadLoginPatch (old : LoginData) (p : LoginPatch) : LoginData :=
  { appId := patchField old.appId p.appId
    created := patchField old.created p.created
    lastLogin := patchField old.lastLogin p.lastLogin
    loginId := patchField old.loginId p.loginId
    otpKey := patchField old.otpKey p.otpKey
    otpResetDate := patchField old.otpResetDate p.otpResetDate
    otpTimeout := patchField old.otpTimeout p.otpTimeout
    userId := patchField old.userId p.userId
    username := patchField old.username p.username
    loginKey := patchField old.loginKey p.loginKey
    loginAuth := patchField old.loginAuth p.loginAuth
    passwordAuth := patchField old.passwordAuth p.passwordAuth
    pin := patchField old.pin p.pin
    pin2Key := patchField old.pin2Key p.pin2Key
    recovery2Key := patchField old.recovery2Key p.recovery2Key
    keyInfos := old.keyInfos }

/-- The spread of `kit.stash`'s scalar fields over a stash node's data. -/
def spreadStashPatch (old : StashData) (p : StashPatch) : StashData :=
  { appId := patchField old.appId p.appId
    created := patchField old.created p.created
    lastLogin := patchField old.lastLogin p.lastLogin
    loginId := patchField old.loginId p.loginId
    userId := patchField old.userId p.userId
    username := patchField old.username p.username
    otpKey := patchField old.otpKey p.otpKey
    otpResetDate := patchField old.otpResetDate p.otpResetDate
    otpTimeout := patchField old.otpTimeout p.otpTimeout
    voucherId := patchField old.voucherId p.voucherId
    voucherAuth := patchField old.voucherAuth p.voucherAuth
    loginAuthBox := patchField old.loginAuthBox p.loginAuthBox
    parentBox := patchField old.parentBox p.parentBox
    passwordAuthBox := patchField old.passwordAuthBox p.passwordAuthBox
    passwordAuthSnrp := patchField old.passwordAuthSnrp p.passwordAuthSnrp
    passwordBox := patchField old.passwordBox p.passwordBox
    passwordKeySnrp := patchField old.passwordKeySnrp p.passwordKeySnrp
    pin2Box := patchField old.pin2Box p.pin2Box
    pin2Key := patchField old.pin2Key p.pin2Key
    pin2KeyBox := patchField old.pin2KeyBox p.pin2KeyBox
    pin2TextBox := patchField old.pin2TextBox p.pin2TextBox
    question2Box := patchField old.question2Box p.question2Box
    recovery2Box := patchField old.recovery2Box p.recovery2Box
    recovery2Key := patchField old.recovery2Key p.recovery2Key
    recovery2KeyBox := patchField old.recovery2KeyBox p.recovery2KeyBox
    mnemonicBox := patchField old.mnemonicBox p.mnemonicBox
    rootKeyBox := patchField old.rootKeyBox p.rootKeyBox
    syncKeyBox := patchField old.syncKeyBox p.syncKeyBox
    keyBoxes := old.keyBoxes }

/-- The login-side merge of `applyKit`: spread `kit.login`, then override
`children` (null-safe concat) and `keyInfos` (deduplicating merge). -/
def kitMergeLogin (kit : LoginKit) (login : LoginNode) : LoginNode :=
  .mk
    { spreadLoginPatch login.data kit.login with
        keyInfos := some (mergeKeyInfos
          (softCat login.data.keyInfos kit.login.keyInfos)) }
    (softCat (some login.children) kit.login.children)

/-- The stash-side merge of `applyKit`: spread `kit.stash`, then override
`children` and `keyBoxes` (null-safe concat). -/
def kitMergeStash (kit : LoginKit) (stash : StashNode) : StashNode :=
  .mk
    { spreadStashPatch stash.data kit.stash with
        keyBoxes := some (softCat stash.data.keyBoxes kit.stash.keyBoxes) }
    (some (softCat stash.children kit.stash.children))

/-- The behaviour of `loginFetch(ai, method, path, request)`, supplied by
the environment (replies are raw JSON, i.e. stash-shaped nodes). -/
abbrev Fetch := String → String → LoginRequest → Except Err StashNode

/-- JavaScript truthiness of `loginTree.username`
(`!loginTree.username` is true for a missing and for an empty username). -/
def usernameOk : Option String → Bool
  | none => false
  | some s => s != ""

/-- `getStash(ai, username)` — modelled from the spec: `login-selectors.ts`
is not among the sources; §4.5 says the root stash is located by username
in memory, so it is a total lookup supplied by the environment. -/
abbrev GetStash := String → StashNode

/-- `applyKit(ai, loginTree, kit)`: locate the target by `loginId`
(`MissingLogin`), require a root username, build the auth JSON, attach
`kit.server` as `data`, call the server, then merge memory and stash trees
and persist the stash before returning the new login tree. -/
def applyKit (fetch : Fetch) (stashes : GetStash) (setText : SetText)
    (disk : Disk) (loginTree : LoginNode) (kit : LoginKit) :
    Except Err (LoginNode × Disk × LoginEvent) :=
  let serverMethod := kit.serverMethod.getD "POST"
  match searchTree (fun login => login.data.loginId == some kit.loginId) loginTree with
  | none => .error .missingLogin
  | some login =>
    if usernameOk loginTree.data.username = false then .error .missingUsername
    else do
      let stashTree := stashes (loginTree.data.username.getD "")
      let request0 ← makeAuthJson login
      let request := { request0 with payload := kit.server }
      let _reply ← fetch serverMethod kit.serverPath request
      let newLoginTree := updateTreeLogin
        (fun login => login.data.loginId == some kit.loginId)
        (kitMergeLogin kit) loginTree
      let newStashTree := updateTreeStash
        (fun stash => stash.data.loginId == some kit.loginId)
        (kitMergeStash kit) cloneNodeStash stashTree
      let saved ← saveStash setText disk newStashTree
      .ok (newLoginTree, saved.1, saved.2)

/-- `syncLogin(ai, loginTree, login)`: refresh a login with server data and
persist the reconciled stash. -/
def syncLogin (fetch : Fetch) (stashes : GetStash) (setText : SetText)
    (disk : Disk) (loginTree login : LoginNode) (now : JsDate) :
    Except Err (LoginNode × Disk × LoginEvent) :=
  if usernameOk loginTree.data.username = false then .error .syncMissingUsername
  else do
    let stashTree := stashes (loginTree.data.username.getD "")
    let request ← makeAuthJson login
    let reply ← fetch "POST" "/v2/login" request
    let newStashTree ← applyLoginReply stashTree (login.data.loginKey.getD []) reply
    let newLoginTree ← makeLoginTree newStashTree (login.data.loginKey.getD [])
      (login.data.appId.getD "") now
    let saved ← saveStash setText disk newStashTree
    .ok (newLoginTree, saved.1, saved.2)

/-! ## Scrypt parameter chooser (`scrypt-pixie.ts` `calcSnrpForTarget`)

JavaScript numbers are embedded as rationals; every quantity the claims
constrain (`r`, `nPow`, `p`) is produced by clamping to fixed integer
bounds and flooring, which floats and rationals decide identically. -/

/-- The step pattern shared by the three budget loops of
`calcSnrpForTarget`: clamp the raw increment below at `0`, cap it, and
`Math.floor` the result. -/
def clampFloor (raw cap : ℚ) : ℤ :=
  let v0 := if raw > 0 then raw else 0
  let v1 := if v0 > cap then cap else v0
  ⌊v1⌋

/-- `calcSnrpForTarget(salt, benchMs, targetMs)`. -/
def calcSnrpForTarget (salt : Bytes) (benchMs targetMs : ℚ) : EdgeSnrp :=
  let snrp0 : EdgeSnrp :=
    { salt_hex := b16encode salt, n := 16384, r := 8, p := 1 }
  if benchMs = 0 then { snrp0 with n := 131072, r := 8, p := 64 }
  else
    let timeUsed := benchMs
    -- Add additional r value first:
    let startingR : ℚ := 8
    let maxR : ℚ := 8
    let remainingR := maxR - startingR
    let perRValue := benchMs / startingR
    let addR := clampFloor ((targetMs - timeUsed) / perRValue) remainingR
    let rOut : ℤ := 8 + addR
    let timeUsed := timeUsed + (addR : ℚ) * perRValue
    -- Add additional N value in powers of 2 (max nPow = 17):
    let nPow : ℤ := 14
    let addN := clampFloor ((targetMs - timeUsed) / timeUsed) 3
    let nPow := nPow + (if addN ≥ 0 then addN else 0)
    let timeUsed := timeUsed + (addN : ℚ) * timeUsed
    let nOut : ℤ := 2 ^ nPow.toNat
    -- Add additional p value (max 64):
    let addP := clampFloor ((targetMs - timeUsed) / timeUsed) 64
    let pOut : ℤ := if addP ≥ 1 then addP else 1
    { snrp0 with n := nOut, r := rOut, p := pOut }

/-! ## General helpers for the proofs -/

theorem except_bind_ok {α β : Type} {x : Except Err α} {f : α → Except Err β}
    {b : β} (h : (x >>= f) = .ok b) : ∃ a, x = .ok a ∧ f a = .ok b := by
  cases x with
  | ok a => exact ⟨a, rfl, h⟩
  | error e => simp [Bind.bind, Except.bind] at h

theorem updateTreeStashE_pred_true {pred : StashNode → Bool}
    {update : StashNode → Except Err StashNode} {s : StashNode}
    (h : pred s = true) : updateTreeStashE pred update s = update s := by
  cases s with
  | mk d cs =>
    rw [updateTreeStashE.eq_def]
    simp only [h, if_true]

theorem updateTreeMakeLogin_pred_true {pred : StashNode → Bool}
    {update : StashNode → Except Err LoginNode}
    {clone : StashNode → List LoginNode → LoginNode} {s : StashNode}
    (h : pred s = true) : updateTreeMakeLogin pred update clone s = update s := by
  cases s with
  | mk d cs =>
    rw [updateTreeMakeLogin.eq_def]
    simp only [h, if_true]

theorem updateTreeStash_pred_true {pred : StashNode → Bool}
    {update : StashNode → StashNode}
    {clone : StashNode → List StashNode → StashNode} {s : StashNode}
    (h : pred s = true) : updateTreeStash pred update clone s = update s := by
  cases s with
  | mk d cs =>
    rw [updateTreeStash.eq_def]
    simp only [h, if_true]

/-! ## Claim C5 — `makeAuthJson` method choice -/

/-- C5: `makeAuthJson(login)` returns a `loginId / loginAuth / otp` request
whenever `loginAuth` is present (even if `passwordAuth` is also present),
returns a `userId / passwordAuth / otp` request when only `passwordAuth` is
present, and fails with `NoAuth` when neither is present; `otp` is
`TOTP(otpKey)` when `login.otpKey` is present and omitted when it is not. -/
theorem c5_makeAuthJson_spec (login : LoginNode) :
    (∀ la, login.data.loginAuth = some la →
      makeAuthJson login = .ok
        { loginId := login.data.loginId
          loginAuth := some (b64encode la)
          otp := login.data.otpKey.map totp }) ∧
    (∀ pa, login.data.loginAuth = none → login.data.passwordAuth = some pa →
      makeAuthJson login = .ok
        { userId := login.data.userId
          passwordAuth := some (b64encode pa)
          otp := login.data.otpKey.map totp }) ∧
    (login.data.loginAuth = none → login.data.passwordAuth = none →
      makeAuthJson login = .error .noAuth) ∧
    (login.data.otpKey = none → getLoginOtp login = none) ∧
    (∀ okey, login.data.otpKey = some okey →
      getLoginOtp login = some (totp okey)) := by
  refine ⟨?_, ?_, ?_, ?_, ?_⟩
  · intro la h
    simp [makeAuthJson, h, getLoginOtp]
  · intro pa h1 h2
    simp [makeAuthJson, h1, h2, getLoginOtp]
  · intro h1 h2
    simp [makeAuthJson, h1, h2]
  · intro h
    simp [getLoginOtp, h]
  · intro okey h
    simp [getLoginOtp, h]

def c5Login : LoginNode :=
  .mk { loginId := some "L", loginAuth := some [1], passwordAuth := some [2],
        otpKey := some "K" } []

/-- Witness for C5 at a login carrying both auth methods and an OTP key. -/
theorem c5_witness :
    makeAuthJson c5Login = .ok
      { loginId := some "L", loginAuth := some (b64encode [1]),
        otp := some (totp "K") } :=
  (c5_makeAuthJson_spec c5Login).1 [1] rfl

/-! ## Claim C8 — `getStashOtp` (corrected)

The guard in the source is `/[0-9]+/.test(otp) && otp.length < 16`; the
regex is unanchored, so it asks for at least one digit, not for a string of
digits.  A short mixed string such as `"a1"` is therefore returned
verbatim, refuting "verbatim exactly when `opts.otp` is a digit string
shorter than 16". -/

def c8Stash : StashNode := .mk {} none

/-- C8 counterexample: `opts.otp = "a1"` is not a digit string, yet
`getStashOtp` returns it verbatim (the unanchored regex accepts it). -/
theorem c8_counterexample :
    getStashOtp c8Stash { otp := some "a1" } = some "a1" ∧
    ("a1".data.all Char.isDigit) = false ∧
    totp "a1" ≠ "a1" := by
  refine ⟨rfl, by decide, by decide⟩

/-- C8 (amended): `getStashOtp` returns `opts.otp` verbatim exactly when it
contains at least one ASCII digit and is shorter than 16 characters;
otherwise, when `opts.otp` is set it returns `TOTP(opts.otp)`; otherwise,
when `opts.otpKey` or `stash.otpKey` is set (`opts.otpKey` taking
precedence) it returns the TOTP of that key; otherwise it returns unset. -/
theorem c8_getStashOtp_spec (stash : StashNode) (opts : EdgeAccountOptions) :
    (∀ o, opts.otp = some o → hasDigit o = true → o.length < 16 →
      getStashOtp stash opts = some o) ∧
    (∀ o, opts.otp = some o → ¬(hasDigit o = true ∧ o.length < 16) →
      getStashOtp stash opts = some (totp o)) ∧
    (∀ k2, opts.otp = none → opts.otpKey = some k2 →
      getStashOtp stash opts = some (totp k2)) ∧
    (∀ k2, opts.otp = none → opts.otpKey = none → stash.data.otpKey = some k2 →
      getStashOtp stash opts = some (totp k2)) ∧
    (opts.otp = none → opts.otpKey = none → stash.data.otpKey = none →
      getStashOtp stash opts = none) := by
  refine ⟨?_, ?_, ?_, ?_, ?_⟩
  · intro o h hd hl
    simp [getStashOtp, h, hd, hl]
  · intro o h hn
    rw [getStashOtp]
    simp only [h]
    rw [if_neg]
    intro hc
    exact hn ⟨hc.1, hc.2⟩
  · intro k2 h1 h2
    simp [getStashOtp, h1, h2]
  · intro k2 h1 h2 h3
    simp [getStashOtp, h1, h2, h3]
  · intro h1 h2 h3
    simp [getStashOtp, h1, h2, h3]

/-- Witness for C8: a digit-only code is returned verbatim. -/
theorem c8_witness :
    getStashOtp c8Stash { otp := some "123456" } = some "123456" :=
  (c8_getStashOtp_spec c8Stash { otp := some "123456" }).1 "123456" rfl
    (by decide) (by decide)

/-! ## Claim C3 — `saveStash` validation, path and event -/

/-- The deterministic on-disk path of a root stash. -/
def stashPath (loginId : Bytes) : String :=
  "logins/" ++ b58encode loginId ++ ".json"

/-- C3: `saveStash` fails — writing nothing and emitting nothing — unless
the root has `appId = ""`, a `loginId` that base64-decodes to exactly 32
bytes, and a `username`; when the preconditions hold it performs exactly
one whole-file write of the serialised tree to
`logins/<base58(loginId)>.json` and emits `LOGIN_STASH_SAVED` only if that
write succeeds.  (Failure is fetch- and disk-independent: the result is
the same for every `setText`.) -/
theorem c3_saveStash_spec (setText : SetText) (disk : Disk) (s : StashNode) :
    (¬(s.data.appId = some "" ∧
        (∃ lid bs, s.data.loginId = some lid ∧ b64parse lid = some bs ∧
          bs.length = 32) ∧
        s.data.username ≠ none) →
      (∃ e, saveStash setText disk s = .error e) ∧
      ∀ setText2, saveStash setText2 disk s = saveStash setText disk s) ∧
    (∀ lid bs, s.data.appId = some "" → s.data.loginId = some lid →
      b64parse lid = some bs → bs.length = 32 → s.data.username ≠ none →
      saveStash setText disk s =
        (setText disk (stashPath bs) s).map fun disk2 =>
          (disk2, .loginStashSaved s)) := by
  constructor
  · intro hn
    by_cases h1 : s.data.appId = some ""
    · by_cases h2 : s.data.loginId = none
      · constructor
        · exact ⟨.saveNoLoginId, by rw [saveStash, if_neg (by simp [h1]), if_pos h2]⟩
        · intro setText2
          rw [saveStash, if_neg (by simp [h1]), if_pos h2,
            saveStash, if_neg (by simp [h1]), if_pos h2]
      · obtain ⟨lid, hlid⟩ := Option.ne_none_iff_exists'.mp h2
        by_cases h3 : s.data.username = none
        · constructor
          · exact ⟨.saveNoUsername,
              by rw [saveStash, if_neg (by simp [h1]), if_neg h2, if_pos h3]⟩
          · intro setText2
            rw [saveStash, if_neg (by simp [h1]), if_neg h2, if_pos h3,
              saveStash, if_neg (by simp [h1]), if_neg h2, if_pos h3]
        · cases hp : b64parse lid with
          | none =>
            constructor
            · refine ⟨.badBase64, ?_⟩
              rw [saveStash, if_neg (by simp [h1]), if_neg h2, if_neg h3, hlid]
              simp [hp]
            · intro setText2
              rw [saveStash, if_neg (by simp [h1]), if_neg h2, if_neg h3, hlid]
              rw [saveStash, if_neg (by simp [h1]), if_neg h2, if_neg h3, hlid]
              simp [hp]
          | some bs =>
            by_cases hlen : bs.length = 32
            · exact absurd ⟨h1, ⟨lid, bs, hlid, hp, hlen⟩, h3⟩ hn
            · constructor
              · refine ⟨.saveBadLoginId, ?_⟩
                rw [saveStash, if_neg (by simp [h1]), if_neg h2, if_neg h3, hlid]
                simp [hp, hlen]
              · intro setText2
                rw [saveStash, if_neg (by simp [h1]), if_neg h2, if_neg h3, hlid]
                rw [saveStash, if_neg (by simp [h1]), if_neg h2, if_neg h3, hlid]
                simp [hp, hlen]
    · constructor
      · exact ⟨.saveNoAppId, by rw [saveStash, if_pos (by simp [h1])]⟩
      · intro setText2
        rw [saveStash, if_pos (by simp [h1]), saveStash, if_pos (by simp [h1])]
  · intro lid bs h1 h2 hp hlen h3
    rw [saveStash, if_neg (by simp [h1]), if_neg (by simp [h2]), if_neg h3, h2]
    simp only [Option.getD_some, hp, hlen]
    rw [if_neg (by simp)]
    show (setText disk (stashPath bs) s >>= fun disk2 =>
      Except.ok (disk2, LoginEvent.loginStashSaved s)) = _
    cases setText disk (stashPath bs) s <;> rfl

def c3LidBytes : Bytes := List.replicate 32 0

def c3Stash : StashNode :=
  .mk { appId := some "", loginId := some (b64encode c3LidBytes),
        username := some "bob" } none

/-- Witness for C3 at a valid root stash and a reliable disklet. -/
theorem c3_witness :
    saveStash reliableSetText [] c3Stash =
      (reliableSetText [] (stashPath c3LidBytes) c3Stash).map fun disk2 =>
        (disk2, .loginStashSaved c3Stash) :=
  (c3_saveStash_spec reliableSetText [] c3Stash).2 (b64encode c3LidBytes)
    c3LidBytes rfl rfl (by decide) (by decide) (by decide)

/-! ## Claim C9 — `calcSnrpForTarget` parameter ranges -/

theorem clampFloor_bounds (raw cap : ℚ) (hc : 0 ≤ cap) :
    0 ≤ clampFloor raw cap ∧ clampFloor raw cap ≤ ⌊cap⌋ := by
  rw [clampFloor]
  set v0 := if raw > 0 then raw else 0 with hv0
  have h0 : 0 ≤ v0 := by
    rw [hv0]
    split_ifs with h
    · exact le_of_lt h
    · exact le_refl 0
  by_cases hgt : v0 > cap
  · rw [if_pos hgt]
    exact ⟨Int.floor_nonneg.mpr hc, le_refl _⟩
  · rw [if_neg hgt]
    exact ⟨Int.floor_nonneg.mpr h0, Int.floor_le_floor (not_lt.mp hgt)⟩

/-- C9: with `benchMs = 0` the chooser returns the fixed
`n = 131072, r = 8, p = 64`; with any `benchMs > 0` and any `targetMs` the
result satisfies `r = 8`, `n = 2 ^ k` with `14 ≤ k ≤ 17`, and
`1 ≤ p ≤ 64`. -/
theorem c9_calcSnrp_spec :
    (∀ (salt : Bytes) (targetMs : ℚ),
      calcSnrpForTarget salt 0 targetMs =
        { salt_hex := b16encode salt, n := 131072, r := 8, p := 64 }) ∧
    (∀ (salt : Bytes) (benchMs targetMs : ℚ), 0 < benchMs →
      (calcSnrpForTarget salt benchMs targetMs).r = 8 ∧
      (∃ k, 14 ≤ k ∧ k ≤ 17 ∧
        (calcSnrpForTarget salt benchMs targetMs).n = 2 ^ k) ∧
      1 ≤ (calcSnrpForTarget salt benchMs targetMs).p ∧
      (calcSnrpForTarget salt benchMs targetMs).p ≤ 64) := by
  constructor
  · intro salt targetMs
    rw [calcSnrpForTarget, if_pos rfl]
  · intro salt benchMs targetMs hb
    have hbne : ¬(benchMs = 0) := ne_of_gt hb
    rw [calcSnrpForTarget, if_neg hbne]
    simp only []
    have hr := clampFloor_bounds ((targetMs - benchMs) / (benchMs / 8))
      ((8 : ℚ) - 8) (by norm_num)
    have hr0 : clampFloor ((targetMs - benchMs) / (benchMs / 8)) ((8 : ℚ) - 8) = 0 := by
      have h38 : (⌊(8 : ℚ) - 8⌋ : ℤ) = 0 := by norm_num
      omega
    rw [hr0]
    set t1 : ℚ := benchMs + (((0 : ℤ) : ℚ)) * (benchMs / 8) with ht1
    have hn := clampFloor_bounds ((targetMs - t1) / t1) 3 (by norm_num)
    have h3 : (⌊(3 : ℚ)⌋ : ℤ) = 3 := by norm_num
    set addN := clampFloor ((targetMs - t1) / t1) 3 with haddN
    have haddN0 : 0 ≤ addN := hn.1
    have haddN3 : addN ≤ 3 := by omega
    rw [if_pos haddN0]
    set t2 : ℚ := t1 + (addN : ℚ) * t1 with ht2
    have hp := clampFloor_bounds ((targetMs - t2) / t2) 64 (by norm_num)
    have h64 : (⌊(64 : ℚ)⌋ : ℤ) = 64 := by norm_num
    set addP := clampFloor ((targetMs - t2) / t2) 64 with haddP
    refine ⟨rfl, ⟨(14 + addN).toNat, ?_, ?_, ?_⟩, ?_, ?_⟩
    · omega
    · omega
    · rfl
    · by_cases h1 : 1 ≤ addP
      · rw [if_pos h1]; exact h1
      · rw [if_neg h1]
    · by_cases h1 : 1 ≤ addP
      · rw [if_pos h1]; omega
      · rw [if_neg h1]; norm_num

/-- Witness for C9 at `benchMs = 5`, `targetMs = 2000`. -/
theorem c9_witness :
    (0 : ℚ) < 5 ∧
    ((calcSnrpForTarget [] 5 2000).r = 8 ∧
      (∃ k, 14 ≤ k ∧ k ≤ 17 ∧ (calcSnrpForTarget [] 5 2000).n = 2 ^ k) ∧
      1 ≤ (calcSnrpForTarget [] 5 2000).p ∧
      (calcSnrpForTarget [] 5 2000).p ≤ 64) :=
  ⟨by norm_num, c9_calcSnrp_spec.2 [] 5 2000 (by norm_num)⟩

/-! ## Claim C7 — `sanitizeLoginStash` idempotence and shape -/

/-- The per-`appId` list walk performed by `sanitizeLoginStash` below a
non-matching node. -/
def sanitizeListAux (a : String) (l : List StashNode) : List StashNode :=
  updateTreeStashList
    (fun stash => stash.data.appId == some a)
    (fun stash => stash)
    (fun stash children => .mk (filterObjectStashHeader stash.data) (some children))
    l

theorem filterObjectStashHeader_appId (d : StashData) :
    (filterObjectStashHeader d).appId = d.appId := rfl

theorem filterObjectStashHeader_idem (d : StashData) :
    filterObjectStashHeader (filterObjectStashHeader d) = filterObjectStashHeader d := rfl

theorem sanitize_unfold_none (d : StashData) (a : String) :
    sanitizeLoginStash (.mk d none) a =
      if (d.appId == some a) = true then .mk d none
      else .mk (filterObjectStashHeader d) (some []) := by
  by_cases hm : (d.appId == some a) = true
  · rw [if_pos hm]
    exact updateTreeStash_pred_true hm
  · rw [if_neg hm, sanitizeLoginStash, updateTreeStash.eq_def]
    simp only [StashNode.data, hm]
    rfl

theorem sanitize_unfold_some (d : StashData) (a : String) (l : List StashNode) :
    sanitizeLoginStash (.mk d (some l)) a =
      if (d.appId == some a) = true then .mk d (some l)
      else .mk (filterObjectStashHeader d) (some (sanitizeListAux a l)) := by
  by_cases hm : (d.appId == some a) = true
  · rw [if_pos hm]
    exact updateTreeStash_pred_true hm
  · rw [if_neg hm, sanitizeLoginStash, updateTreeStash.eq_def]
    simp only [StashNode.data, hm]
    rfl

theorem sanitizeListAux_cons (a : String) (c : StashNode) (cs : List StashNode) :
    sanitizeListAux a (c :: cs) = sanitizeLoginStash c a :: sanitizeListAux a cs := rfl

mutual

theorem sanitize_idem (a : String) : ∀ s : StashNode,
    sanitizeLoginStash (sanitizeLoginStash s a) a = sanitizeLoginStash s a
  | .mk d none => by
    by_cases hm : (d.appId == some a) = true
    · rw [sanitize_unfold_none, if_pos hm, sanitize_unfold_none, if_pos hm]
    · rw [sanitize_unfold_none, if_neg hm, sanitize_unfold_some,
        filterObjectStashHeader_appId, if_neg hm, filterObjectStashHeader_idem]
      rfl
  | .mk d (some l) => by
    by_cases hm : (d.appId == some a) = true
    · rw [sanitize_unfold_some, if_pos hm, sanitize_unfold_some, if_pos hm]
    · rw [sanitize_unfold_some, if_neg hm, sanitize_unfold_some,
        filterObjectStashHeader_appId, if_neg hm, filterObjectStashHeader_idem,
        sanitizeListAux_idem a l]

theorem sanitizeListAux_idem (a : String) : ∀ l : List StashNode,
    sanitizeListAux a (sanitizeListAux a l) = sanitizeListAux a l
  | [] => rfl
  | c :: cs => by
    rw [sanitizeListAux_cons, sanitizeListAux_cons, sanitize_idem a c,
      sanitizeListAux_idem a cs]

end

/-- A node's scalar data is reduced to the `username / appId / loginId`
header (every other field absent). -/
def isHeaderOnly (d : StashData) : Bool :=
  decide (d = filterObjectStashHeader d)

mutual

/-- Every node outside a subtree matching the appId carries only the
header fields (plus children). -/
def strippedOutsideMatch (a : String) : StashNode → Bool
  | .mk d none => if d.appId == some a then true else isHeaderOnly d
  | .mk d (some l) =>
    if d.appId == some a then true
    else isHeaderOnly d && strippedOutsideMatchList a l

def strippedOutsideMatchList (a : String) : List StashNode → Bool
  | [] => true
  | c :: cs => strippedOutsideMatch a c && strippedOutsideMatchList a cs

end

theorem isHeaderOnly_header (d : StashData) :
    isHeaderOnly (filterObjectStashHeader d) = true := by
  rw [isHeaderOnly, filterObjectStashHeader_idem]
  simp

mutual

theorem sanitize_stripped (a : String) : ∀ s : StashNode,
    strippedOutsideMatch a (sanitizeLoginStash s a) = true
  | .mk d none => by
    by_cases hm : (d.appId == some a) = true
    · rw [sanitize_unfold_none, if_pos hm, strippedOutsideMatch, if_pos hm]
    · rw [sanitize_unfold_none, if_neg hm, strippedOutsideMatch,
        filterObjectStashHeader_appId, if_neg hm, isHeaderOnly_header]
      rfl
  | .mk d (some l) => by
    by_cases hm : (d.appId == some a) = true
    · rw [sanitize_unfold_some, if_pos hm, strippedOutsideMatch, if_pos hm]
    · rw [sanitize_unfold_some, if_neg hm, strippedOutsideMatch,
        filterObjectStashHeader_appId, if_neg hm, isHeaderOnly_header,
        sanitizeListAux_stripped a l]
      rfl

theorem sanitizeListAux_stripped (a : String) : ∀ l : List StashNode,
    strippedOutsideMatchList a (sanitizeListAux a l) = true
  | [] => rfl
  | c :: cs => by
    rw [sanitizeListAux_cons, strippedOutsideMatchList,
      sanitize_stripped a c, sanitizeListAux_stripped a cs]
    rfl

end

mutual

/-- The output preserves, verbatim and in place, every node at which the
`sanitizeLoginStash` walk matches the requested appId: a matching node of
the input must reappear identically at the same position of the output,
and below non-matching input nodes the children correspond one to one. -/
def verbatimMatches (a : String) : StashNode → StashNode → Bool
  | .mk d cs, out =>
    if d.appId == some a then decide (out = .mk d cs)
    else
      match cs, out with
      | none, _ => true
      | some _, .mk _ none => false
      | some l, .mk _ (some ol) => verbatimMatchesList a l ol

def verbatimMatchesList (a : String) : List StashNode → List StashNode → Bool
  | [], [] => true
  | [], _ :: _ => false
  | _ :: _, [] => false
  | c :: cs, o :: os => verbatimMatches a c o && verbatimMatchesList a cs os

end

mutual

theorem sanitize_verbatim (a : String) : ∀ s : StashNode,
    verbatimMatches a s (sanitizeLoginStash s a) = true
  | .mk d none => by
    by_cases hm : (d.appId == some a) = true
    · rw [sanitize_unfold_none, if_pos hm, verbatimMatches, if_pos hm]
      simp
    · rw [sanitize_unfold_none, if_neg hm, verbatimMatches, if_neg hm]
  | .mk d (some l) => by
    by_cases hm : (d.appId == some a) = true
    · rw [sanitize_unfold_some, if_pos hm, verbatimMatches, if_pos hm]
      simp
    · rw [sanitize_unfold_some, if_neg hm, verbatimMatches, if_neg hm]
      exact sanitizeListAux_verbatim a l

theorem sanitizeListAux_verbatim (a : String) : ∀ l : List StashNode,
    verbatimMatchesList a l (sanitizeListAux a l) = true
  | [] => rfl
  | c :: cs => by
    rw [sanitizeListAux_cons, verbatimMatchesList, sanitize_verbatim a c,
      sanitizeListAux_verbatim a cs]
    rfl

end

/-- C7: `sanitizeLoginStash` is idempotent; a node matching the appId is
returned verbatim wherever it sits in the tree (a matching root is
returned whole, and `verbatimMatches` certifies that every node at which
the walk matches reappears identically, subtree included, at the same
position of the output), and in the result every node outside a matching
subtree carries only `username` (when present), `appId`, `loginId` and
`children`. -/
theorem c7_sanitize_spec (s : StashNode) (a : String) :
    sanitizeLoginStash (sanitizeLoginStash s a) a = sanitizeLoginStash s a ∧
    (s.data.appId = some a → sanitizeLoginStash s a = s) ∧
    verbatimMatches a s (sanitizeLoginStash s a) = true ∧
    strippedOutsideMatch a (sanitizeLoginStash s a) = true := by
  refine ⟨sanitize_idem a s, ?_, sanitize_verbatim a s, sanitize_stripped a s⟩
  intro h
  exact updateTreeStash_pred_true (by simp [h])

def c7Node : StashNode :=
  .mk { appId := some "x", loginId := some "L",
        passwordBox := some { boxKey := [1], plain := [2] } }
    (some [.mk { appId := some "y", loginId := some "M" } none])

/-- Witness for C7 at a tree whose matching node is a child, not the
root: the child is preserved verbatim in place while the root is stripped
to the header. -/
theorem c7_witness :
    sanitizeLoginStash (sanitizeLoginStash c7Node "y") "y" =
      sanitizeLoginStash c7Node "y" ∧
    verbatimMatches "y" c7Node (sanitizeLoginStash c7Node "y") = true ∧
    strippedOutsideMatch "y" (sanitizeLoginStash c7Node "y") = true := by
  have h := c7_sanitize_spec c7Node "y"
  exact ⟨h.1, h.2.2.1, h.2.2.2⟩

/-! ## Claim C6 — `applyKit` ordering and failure behaviour -/

theorem except_bind_map {α β : Type} (x : Except Err α) (f : α → β) :
    (x >>= fun a => Except.ok (f a)) = x.map f := by
  cases x <;> rfl

/-- C6: `applyKit` locates the target by `loginId` and fails with
`MissingLogin` without consulting the server (the result is the same for
every `fetch`) and without touching any state when no node matches; when
the target exists the server call comes first — a failing call yields its
error with no stash write and no new tree — and on server success the
result is exactly the persisted stash write sequenced before the new login
tree. -/
theorem c6_applyKit_spec (fetch : Fetch) (stashes : GetStash)
    (setText : SetText) (disk : Disk) (loginTree : LoginNode) (kit : LoginKit) :
    (searchTree (fun login => login.data.loginId == some kit.loginId) loginTree
        = none →
      applyKit fetch stashes setText disk loginTree kit = .error .missingLogin ∧
      ∀ fetch2, applyKit fetch2 stashes setText disk loginTree kit =
        applyKit fetch stashes setText disk loginTree kit) ∧
    (∀ login req0 e,
      searchTree (fun login => login.data.loginId == some kit.loginId) loginTree
        = some login →
      usernameOk loginTree.data.username = true →
      makeAuthJson login = .ok req0 →
      fetch (kit.serverMethod.getD "POST") kit.serverPath
        { req0 with payload := kit.server } = .error e →
      applyKit fetch stashes setText disk loginTree kit = .error e) ∧
    (∀ login req0 reply,
      searchTree (fun login => login.data.loginId == some kit.loginId) loginTree
        = some login →
      usernameOk loginTree.data.username = true →
      makeAuthJson login = .ok req0 →
      fetch (kit.serverMethod.getD "POST") kit.serverPath
        { req0 with payload := kit.server } = .ok reply →
      applyKit fetch stashes setText disk loginTree kit =
        (saveStash setText disk
          (updateTreeStash (fun stash => stash.data.loginId == some kit.loginId)
            (kitMergeStash kit) cloneNodeStash
            (stashes (loginTree.data.username.getD "")))).map
          fun saved =>
            (updateTreeLogin (fun login => login.data.loginId == some kit.loginId)
                (kitMergeLogin kit) loginTree,
              saved.1, saved.2)) := by
  refine ⟨?_, ?_, ?_⟩
  · intro hsearch
    constructor
    · rw [applyKit, hsearch]
    · intro fetch2
      rw [applyKit, hsearch, applyKit, hsearch]
  · intro login req0 e hsearch huser hauth hfetch
    rw [applyKit, hsearch]
    show (if usernameOk loginTree.data.username = false then
      Except.error Err.missingUsername else _) = _
    rw [if_neg (by simp [huser])]
    show ((makeAuthJson login) >>= _) = _
    rw [hauth]
    show (fetch (kit.serverMethod.getD "POST") kit.serverPath
      { req0 with payload := kit.server } >>= _) = _
    rw [hfetch]
    rfl
  · intro login req0 reply hsearch huser hauth hfetch
    rw [applyKit, hsearch]
    show (if usernameOk loginTree.data.username = false then
      Except.error Err.missingUsername else _) = _
    rw [if_neg (by simp [huser])]
    show ((makeAuthJson login) >>= _) = _
    rw [hauth]
    show (fetch (kit.serverMethod.getD "POST") kit.serverPath
      { req0 with payload := kit.server } >>= _) = _
    rw [hfetch]
    show (saveStash setText disk _ >>= _) = _
    rw [except_bind_map]

def c6Fetch : Fetch := fun _ _ _ => .ok (.mk {} none)

def c6Tree : LoginNode :=
  .mk { appId := some "", loginId := some "ROOT", username := some "bob",
        loginAuth := some [5], loginKey := some [3] } []

def c6Kit : LoginKit := { loginId := "ROOT", serverPath := "/v2/login/otp" }

def c6Req : LoginRequest :=
  { loginId := some "ROOT", loginAuth := some (b64encode [5]) }

def c6Stashes : GetStash := fun _ =>
  .mk { appId := some "", loginId := some (b64encode c3LidBytes),
        username := some "bob" } none

/-- Witness for C6 on the success path of a one-node tree. -/
theorem c6_witness :
    applyKit c6Fetch c6Stashes reliableSetText [] c6Tree c6Kit =
      (saveStash reliableSetText []
        (updateTreeStash (fun stash => stash.data.loginId == some c6Kit.loginId)
          (kitMergeStash c6Kit) cloneNodeStash
          (c6Stashes (c6Tree.data.username.getD "")))).map
        fun saved =>
          (updateTreeLogin (fun login => login.data.loginId == some c6Kit.loginId)
              (kitMergeLogin c6Kit) c6Tree,
            saved.1, saved.2) :=
  (c6_applyKit_spec c6Fetch c6Stashes reliableSetText [] c6Tree c6Kit).2.2
    c6Tree c6Req (.mk {} none) rfl rfl rfl rfl

/-! ## Claim C1 — the reconciler's field allowlist (corrected)

The fresh node starts as the allowlist copy, but the reconciler then also
copies `keyBoxes` (always overwritten from the reply) and rebuilds
`children` from the reply's children, and it materialises `pin2Key` /
`recovery2Key` out of the reply's `pin2KeyBox` / `recovery2KeyBox`.  A
reply field like `keyBoxes` is outside the allowlist yet present in the
output, refuting the claim as stated; the remaining reply-only fields
(`pin2Box`, `pin2KeyBox`, `question2Box`, `recovery2Box`,
`recovery2KeyBox`) are indeed absent. -/

theorem decrypt_ok {box : EdgeBox} {key : Bytes} {pt : Bytes}
    (h : decrypt box key = .ok pt) : pt = box.plain := by
  rw [decrypt] at h
  by_cases hk : box.boxKey = key
  · rw [if_pos hk] at h
    exact (Except.ok.inj h).symm
  · rw [if_neg hk] at h
    exact absurd h (by simp)

theorem pin2KeyDecrypt_ok {b : Option EdgeBox} {k : Bytes} {v : Option String}
    (h : pin2KeyDecrypt b k = .ok v) :
    v = b.map fun box => b64encode box.plain := by
  cases b with
  | none =>
    cases h
    rfl
  | some box =>
    rw [pin2KeyDecrypt.eq_def] at h
    obtain ⟨pt, hdec, hok⟩ := except_bind_ok h
    rw [decrypt_ok hdec] at hok
    cases hok
    rfl

theorem recovery2KeyDecrypt_ok {b : Option EdgeBox} {k : Bytes}
    {v : Option String} (h : recovery2KeyDecrypt b k = .ok v) :
    v = b.map fun box => b64encode box.plain := by
  cases b with
  | none =>
    cases h
    rfl
  | some box =>
    rw [recovery2KeyDecrypt.eq_def] at h
    obtain ⟨pt, hdec, hok⟩ := except_bind_ok h
    rw [decrypt_ok hdec] at hok
    cases hok
    rfl

theorem applyLoginReplyChildren_length (k : Bytes) :
    ∀ (rc : List StashNode) (sc : List StashNode) (outs : List StashNode),
      applyLoginReplyChildren k sc rc = .ok outs → outs.length = rc.length
  | [], sc, outs => by
    intro h
    cases h
    rfl
  | rchild :: rs, sc, outs => by
    intro h
    rw [applyLoginReplyChildren] at h
    cases hpb : rchild.data.parentBox with
    | none =>
      rw [hpb] at h
      exact absurd h (by simp)
    | some box =>
      rw [hpb] at h
      obtain ⟨childKey, hdec, h⟩ := except_bind_ok h
      cases sc with
      | cons schild ss =>
        obtain ⟨c, hc, h⟩ := except_bind_ok h
        obtain ⟨cs, hcs, h⟩ := except_bind_ok h
        cases h
        simp [applyLoginReplyChildren_length k rs ss cs hcs]
      | nil =>
        obtain ⟨c, hc, h⟩ := except_bind_ok h
        obtain ⟨cs, hcs, h⟩ := except_bind_ok h
        cases h
        simp [applyLoginReplyChildren_length k rs [] cs hcs]

set_option maxHeartbeats 1600000 in
/-- Everything `applyLoginReplyInner` produces, field by field: allowlist
fields come from the reply; `lastLogin` / `username` / `userId` are the
preserved client fields; `voucherId`, `voucherAuth` and the reply-only box
fields are absent; `pin2Key` / `recovery2Key` are the decrypted key boxes;
`keyBoxes` is always overwritten from the reply; `children` is rebuilt
with the reply's child count. -/
theorem applyLoginReplyInner_fields (stash : StashNode) (k : Bytes)
    (r : StashNode) (out : StashNode)
    (h : applyLoginReplyInner stash k r = .ok out) :
    out.data.appId = r.data.appId ∧
    out.data.created = r.data.created ∧
    out.data.loginId = r.data.loginId ∧
    out.data.loginAuthBox = r.data.loginAuthBox ∧
    out.data.otpKey = r.data.otpKey ∧
    out.data.otpResetDate = r.data.otpResetDate ∧
    out.data.otpTimeout = r.data.otpTimeout ∧
    out.data.parentBox = r.data.parentBox ∧
    out.data.passwordAuthBox = r.data.passwordAuthBox ∧
    out.data.passwordAuthSnrp = r.data.passwordAuthSnrp ∧
    out.data.passwordBox = r.data.passwordBox ∧
    out.data.passwordKeySnrp = r.data.passwordKeySnrp ∧
    out.data.pin2TextBox = r.data.pin2TextBox ∧
    out.data.mnemonicBox = r.data.mnemonicBox ∧
    out.data.rootKeyBox = r.data.rootKeyBox ∧
    out.data.syncKeyBox = r.data.syncKeyBox ∧
    out.data.lastLogin = stash.data.lastLogin ∧
    out.data.username = stash.data.username ∧
    out.data.userId = stash.data.userId.elim r.data.userId some ∧
    out.data.voucherId = none ∧
    out.data.voucherAuth = none ∧
    out.data.pin2Box = none ∧
    out.data.pin2KeyBox = none ∧
    out.data.question2Box = none ∧
    out.data.recovery2Box = none ∧
    out.data.recovery2KeyBox = none ∧
    out.data.pin2Key =
      (r.data.pin2KeyBox.map fun box => b64encode box.plain) ∧
    out.data.recovery2Key =
      (r.data.recovery2KeyBox.map fun box => b64encode box.plain) ∧
    out.data.keyBoxes = some (r.data.keyBoxes.getD []) ∧
    (∃ l, out.children = some l ∧ l.length = r.childrenD.length) := by
  cases r with
  | mk rd rcs =>
    rw [applyLoginReplyInner] at h
    obtain ⟨pv, hpv, h⟩ := except_bind_ok h
    obtain ⟨rv, hrv, h⟩ := except_bind_ok h
    by_cases hlen : stash.childrenD.length > (rcs.getD []).length
    · rw [if_pos hlen] at h
      exact absurd h (by simp)
    · rw [if_neg hlen] at h
      obtain ⟨children, hch, h⟩ := except_bind_ok h
      cases h
      have hchlen : children.length = (rcs.getD []).length := by
        cases rcs with
        | none =>
          cases hch
          rfl
        | some rl =>
          exact applyLoginReplyChildren_length k rl stash.childrenD children hch
      refine ⟨rfl, rfl, rfl, rfl, rfl, rfl, rfl, rfl, rfl, rfl, rfl, rfl, rfl,
        rfl, rfl, rfl, ?_, ?_, ?_, rfl, rfl, rfl, rfl, rfl, rfl, rfl,
        pin2KeyDecrypt_ok hpv, recovery2KeyDecrypt_ok hrv,
        rfl, ⟨children, rfl, ?_⟩⟩
      · cases hsl : stash.data.lastLogin <;> rfl
      · cases hsu : stash.data.username <;> rfl
      · cases hsu : stash.data.userId <;> rfl
      · rw [hchlen]
        rfl

/-- C1 (amended): when `applyLoginReply` reconciles the matching stash node,
the output node copies from the reply exactly the allowlist fields plus
`keyBoxes` (always overwritten from the reply) and `children` (rebuilt from
the reply's children), and it replaces the reply's `pin2KeyBox` /
`recovery2KeyBox` by the decrypted plaintext caches `pin2Key` /
`recovery2Key`; every other reply field (`pin2Box`, `pin2KeyBox`,
`question2Box`, `recovery2Box`, `recovery2KeyBox`) is absent from the
output node, as are `voucherId` / `voucherAuth`, and the client-only
`lastLogin` / `username` / `userId` come from the previous stash. -/
theorem c1_applyLoginReply_allowlist (stashTree : StashNode) (k : Bytes)
    (r : StashNode) (out : StashNode)
    (hmatch : stashTree.data.appId = r.data.appId)
    (h : applyLoginReply stashTree k r = .ok out) :
    out.data.appId = r.data.appId ∧
    out.data.created = r.data.created ∧
    out.data.loginId = r.data.loginId ∧
    out.data.loginAuthBox = r.data.loginAuthBox ∧
    out.data.otpKey = r.data.otpKey ∧
    out.data.otpResetDate = r.data.otpResetDate ∧
    out.data.otpTimeout = r.data.otpTimeout ∧
    out.data.parentBox = r.data.parentBox ∧
    out.data.passwordAuthBox = r.data.passwordAuthBox ∧
    out.data.passwordAuthSnrp = r.data.passwordAuthSnrp ∧
    out.data.passwordBox = r.data.passwordBox ∧
    out.data.passwordKeySnrp = r.data.passwordKeySnrp ∧
    out.data.pin2TextBox = r.data.pin2TextBox ∧
    out.data.mnemonicBox = r.data.mnemonicBox ∧
    out.data.rootKeyBox = r.data.rootKeyBox ∧
    out.data.syncKeyBox = r.data.syncKeyBox ∧
    out.data.lastLogin = stashTree.data.lastLogin ∧
    out.data.username = stashTree.data.username ∧
    out.data.userId = stashTree.data.userId.elim r.data.userId some ∧
    out.data.voucherId = none ∧
    out.data.voucherAuth = none ∧
    out.data.pin2Box = none ∧
    out.data.pin2KeyBox = none ∧
    out.data.question2Box = none ∧
    out.data.recovery2Box = none ∧
    out.data.recovery2KeyBox = none ∧
    out.data.pin2Key =
      (r.data.pin2KeyBox.map fun box => b64encode box.plain) ∧
    out.data.recovery2Key =
      (r.data.recovery2KeyBox.map fun box => b64encode box.plain) ∧
    out.data.keyBoxes = some (r.data.keyBoxes.getD []) ∧
    (∃ l, out.children = some l ∧ l.length = r.childrenD.length) := by
  rw [applyLoginReply, updateTreeStashE_pred_true (by simp [hmatch])] at h
  exact applyLoginReplyInner_fields stashTree k r out h

def c1Box : EdgeBox := { boxKey := [1], plain := [2] }

def c1Reply : StashNode :=
  .mk { appId := some "", loginId := some "L", keyBoxes := some [c1Box] } none

def c1Stash : StashNode := .mk { appId := some "", loginId := some "old" } none

/-- C1 counterexample: `keyBoxes` is a reply field outside the allowlist,
yet the reconciled stash node carries it, copied from the reply. -/
theorem c1_counterexample :
    (applyLoginReply c1Stash [9] c1Reply).map (fun out => out.data.keyBoxes) =
      .ok (some [c1Box]) ∧
    (some [c1Box] : Option (List EdgeBox)) ≠ none := by
  exact ⟨rfl, by simp⟩

def c1Out : StashNode :=
  .mk { appId := some "", loginId := some "L", keyBoxes := some [c1Box] }
    (some [])

/-- Witness for C1 at a concrete one-node reconciliation. -/
theorem c1_witness :
    applyLoginReply c1Stash [9] c1Reply = .ok c1Out ∧
    c1Out.data.pin2KeyBox = none ∧
    c1Out.data.question2Box = none ∧
    c1Out.data.keyBoxes = some [c1Box] := by
  have h := c1_applyLoginReply_allowlist c1Stash [9] c1Reply c1Out rfl rfl
  obtain ⟨h1, h2, h3, h4, h5, h6, h7, h8, h9, h10, h11, h12, h13, h14, h15,
    h16, h17, h18, h19, h20, h21, h22, h23, h24, h25, h26, h27, h28, h29,
    h30⟩ := h
  exact ⟨rfl, h23, h24, h29⟩

/-! ## Claim C2 — `ServerLostChildren` (corrected)

The length check runs at each node pair of the matched subtree, but other
failures can preempt it: a reply child without a `parentBox` throws
`KeyIntegrity` while iterating the children of an ancestor, and a box that
fails to decrypt throws before the deeper length check is reached.  The
call still always fails when the condition holds; the error is
`ServerLostChildren` whenever all decryptions in the matched subtree
succeed and every reply child carries its `parentBox`.  The input tree is
never mutated: the embedded reconciler is a pure function that builds a
fresh tree, exactly as the source builds fresh objects. -/

mutual

/-- At some pair of positionally-corresponding nodes, the stash has more
children than the reply (the claim's failure condition). -/
def lostChildren : StashNode → StashNode → Bool
  | .mk _ none, _ => false
  | .mk _ (some sl), r =>
    decide (sl.length > r.childrenD.length) || lostChildrenZip sl r.childrenD

def lostChildrenZip : List StashNode → List StashNode → Bool
  | [], _ => false
  | _ :: _, [] => false
  | s :: ss, r :: rs => lostChildren s r || lostChildrenZip ss rs

end

mutual

/-- The failure condition holds at some node the `updateTree` walk of
`applyLoginReply` matches against the reply. -/
def matchedLost : StashNode → StashNode → Bool
  | .mk d none, r =>
    if d.appId == r.data.appId then lostChildren (.mk d none) r else false
  | .mk d (some l), r =>
    if d.appId == r.data.appId then lostChildren (.mk d (some l)) r
    else matchedLostList l r

def matchedLostList : List StashNode → StashNode → Bool
  | [], _ => false
  | c :: cl, r => matchedLost c r || matchedLostList cl r

end

/-- The box (when present) decrypts under the given key. -/
def boxClean (b : Option EdgeBox) (k : Bytes) : Bool :=
  match b with
  | none => true
  | some box => decide (box.boxKey = k)

mutual

/-- Every decryption `applyLoginReplyInner` performs on this reply subtree
succeeds, and every reply child carries its `parentBox`. -/
def replyClean : Bytes → StashNode → Bool
  | k, .mk rd none =>
    boxClean rd.pin2KeyBox k && boxClean rd.recovery2KeyBox k
  | k, .mk rd (some rl) =>
    boxClean rd.pin2KeyBox k && boxClean rd.recovery2KeyBox k &&
      replyCleanChildren k rl

def replyCleanChildren : Bytes → List StashNode → Bool
  | _, [] => true
  | k, c :: cs =>
    (match c.data.parentBox with
      | none => false
      | some box => decide (box.boxKey = k) && replyClean box.plain c) &&
    replyCleanChildren k cs

end

mutual

theorem applyInner_ok_not_lost :
    ∀ (r : StashNode) (k : Bytes) (s : StashNode) (out : StashNode),
      applyLoginReplyInner s k r = .ok out → lostChildren s r = false
  | .mk rd rcs, k, s, out => by
    intro h
    rw [applyLoginReplyInner] at h
    obtain ⟨pv, hpv, h⟩ := except_bind_ok h
    obtain ⟨rv, hrv, h⟩ := except_bind_ok h
    by_cases hlen : s.childrenD.length > (rcs.getD []).length
    · rw [if_pos hlen] at h
      exact absurd h (by simp)
    · rw [if_neg hlen] at h
      obtain ⟨children, hch, h⟩ := except_bind_ok h
      cases s with
      | mk sd scs =>
        cases scs with
        | none => rfl
        | some sl =>
          rw [lostChildren]
          have h1 :
              decide (sl.length > (StashNode.mk rd rcs).childrenD.length)
                = false := decide_eq_false hlen
          rw [h1]
          cases rcs with
          | none =>
            cases sl with
            | nil => rfl
            | cons a as => rfl
          | some rl =>
            rw [show (StashNode.mk rd (some rl)).childrenD = rl from rfl]
            rw [applyChildren_ok_not_lost rl k sl children hch]
            rfl

theorem applyChildren_ok_not_lost :
    ∀ (rc : List StashNode) (k : Bytes) (sc : List StashNode)
      (outs : List StashNode),
      applyLoginReplyChildren k sc rc = .ok outs → lostChildrenZip sc rc = false
  | [], k, sc, outs => by
    intro h
    cases sc with
    | nil => rfl
    | cons a as => rfl
  | rchild :: rs, k, sc, outs => by
    intro h
    rw [applyLoginReplyChildren] at h
    cases hpb : rchild.data.parentBox with
    | none =>
      rw [hpb] at h
      exact absurd h (by simp)
    | some box =>
      rw [hpb] at h
      obtain ⟨childKey, hdec, h⟩ := except_bind_ok h
      cases sc with
      | nil => rfl
      | cons schild ss =>
        obtain ⟨c, hc, h⟩ := except_bind_ok h
        obtain ⟨cs, hcs, h⟩ := except_bind_ok h
        rw [lostChildrenZip,
          applyInner_ok_not_lost rchild childKey schild c hc,
          applyChildren_ok_not_lost rs k ss cs hcs]
        rfl

end

theorem pin2KeyDecrypt_clean {b : Option EdgeBox} {k : Bytes}
    (hb : boxClean b k = true) :
    pin2KeyDecrypt b k = .ok (b.map fun box => b64encode box.plain) := by
  cases b with
  | none => rfl
  | some box =>
    rw [boxClean] at hb
    have hdec : decrypt box k = .ok box.plain := by
      rw [decrypt, if_pos (of_decide_eq_true hb)]
    rw [pin2KeyDecrypt.eq_def]
    show (decrypt box k >>= _) = _
    rw [hdec]
    rfl

theorem recovery2KeyDecrypt_clean {b : Option EdgeBox} {k : Bytes}
    (hb : boxClean b k = true) :
    recovery2KeyDecrypt b k = .ok (b.map fun box => b64encode box.plain) := by
  cases b with
  | none => rfl
  | some box =>
    rw [boxClean] at hb
    have hdec : decrypt box k = .ok box.plain := by
      rw [decrypt, if_pos (of_decide_eq_true hb)]
    rw [recovery2KeyDecrypt.eq_def]
    show (decrypt box k >>= _) = _
    rw [hdec]
    rfl

mutual

theorem applyInner_clean :
    ∀ (r : StashNode) (k : Bytes) (s : StashNode), replyClean k r = true →
      (∃ out, applyLoginReplyInner s k r = .ok out) ∨
        applyLoginReplyInner s k r = .error .serverLostChildren
  | .mk rd rcs, k, s => by
    intro hc
    cases rcs with
    | none =>
      rw [replyClean] at hc
      obtain ⟨hcp, hcr⟩ := Bool.and_eq_true_iff.mp hc
      by_cases hlen :
          s.childrenD.length > ((none : Option (List StashNode)).getD []).length
      · right
        rw [applyLoginReplyInner, pin2KeyDecrypt_clean hcp,
          recovery2KeyDecrypt_clean hcr]
        show (if s.childrenD.length >
            ((none : Option (List StashNode)).getD []).length then
          Except.error Err.serverLostChildren else _) = _
        rw [if_pos hlen]
      · left
        exact ⟨_, by
          rw [applyLoginReplyInner, pin2KeyDecrypt_clean hcp,
            recovery2KeyDecrypt_clean hcr]
          show (if s.childrenD.length >
              ((none : Option (List StashNode)).getD []).length then
            Except.error Err.serverLostChildren else _) = _
          rw [if_neg hlen]
          rfl⟩
    | some rl =>
      rw [replyClean] at hc
      obtain ⟨h12, hcc⟩ := Bool.and_eq_true_iff.mp hc
      obtain ⟨hcp, hcr⟩ := Bool.and_eq_true_iff.mp h12
      by_cases hlen :
          s.childrenD.length > ((some rl : Option (List StashNode)).getD []).length
      · right
        rw [applyLoginReplyInner, pin2KeyDecrypt_clean hcp,
          recovery2KeyDecrypt_clean hcr]
        show (if s.childrenD.length >
            ((some rl : Option (List StashNode)).getD []).length then
          Except.error Err.serverLostChildren else _) = _
        rw [if_pos hlen]
      · rcases applyChildren_clean rl k s.childrenD hcc with ⟨outs, houts⟩ | hslc
        · left
          exact ⟨_, by
            rw [applyLoginReplyInner, pin2KeyDecrypt_clean hcp,
              recovery2KeyDecrypt_clean hcr]
            show (if s.childrenD.length >
                ((some rl : Option (List StashNode)).getD []).length then
              Except.error Err.serverLostChildren else _) = _
            rw [if_neg hlen]
            show (applyLoginReplyChildren k s.childrenD rl >>= _) = _
            rw [houts]
            rfl⟩
        · right
          rw [applyLoginReplyInner, pin2KeyDecrypt_clean hcp,
            recovery2KeyDecrypt_clean hcr]
          show (if s.childrenD.length >
              ((some rl : Option (List StashNode)).getD []).length then
            Except.error Err.serverLostChildren else _) = _
          rw [if_neg hlen]
          show (applyLoginReplyChildren k s.childrenD rl >>= _) = _
          rw [hslc]
          rfl

theorem applyChildren_clean :
    ∀ (rc : List StashNode) (k : Bytes) (sc : List StashNode),
      replyCleanChildren k rc = true →
      (∃ outs, applyLoginReplyChildren k sc rc = .ok outs) ∨
        applyLoginReplyChildren k sc rc = .error .serverLostChildren
  | [], k, sc => fun _ => .inl ⟨[], rfl⟩
  | rchild :: rs, k, sc => by
    intro hc
    rw [replyCleanChildren] at hc
    obtain ⟨hhead, hrest⟩ := Bool.and_eq_true_iff.mp hc
    cases hpb : rchild.data.parentBox with
    | none =>
      rw [hpb] at hhead
      exact absurd hhead (by simp)
    | some box =>
      rw [hpb] at hhead
      obtain ⟨hk, hclean⟩ := Bool.and_eq_true_iff.mp hhead
      have hdec : decrypt box k = .ok box.plain := by
        rw [decrypt, if_pos (of_decide_eq_true hk)]
      cases sc with
      | nil =>
        rcases applyInner_clean rchild box.plain
            (.mk { appId := rchild.data.appId, loginId := rchild.data.loginId }
              none) hclean with ⟨c, hin⟩ | hin
        · rcases applyChildren_clean rs k [] hrest with ⟨cs, hcs⟩ | hcs
          · left
            exact ⟨_, by
              rw [applyLoginReplyChildren, hpb]
              show (decrypt box k >>= _) = _
              rw [hdec]
              show (applyLoginReplyInner
                (StashNode.mk
                  { appId := rchild.data.appId, loginId := rchild.data.loginId }
                  none) box.plain rchild >>= _) = _
              rw [hin]
              show (applyLoginReplyChildren k [] rs >>= _) = _
              rw [hcs]
              rfl⟩
          · right
            rw [applyLoginReplyChildren, hpb]
            show (decrypt box k >>= _) = _
            rw [hdec]
            show (applyLoginReplyInner
              (StashNode.mk
                { appId := rchild.data.appId, loginId := rchild.data.loginId }
                none) box.plain rchild >>= _) = _
            rw [hin]
            show (applyLoginReplyChildren k [] rs >>= _) = _
            rw [hcs]
            rfl
        · right
          rw [applyLoginReplyChildren, hpb]
          show (decrypt box k >>= _) = _
          rw [hdec]
          show (applyLoginReplyInner
            (StashNode.mk
              { appId := rchild.data.appId, loginId := rchild.data.loginId }
              none) box.plain rchild >>= _) = _
          rw [hin]
          rfl
      | cons schild ss =>
        rcases applyInner_clean rchild box.plain schild hclean with ⟨c, hin⟩ | hin
        · rcases applyChildren_clean rs k ss hrest with ⟨cs, hcs⟩ | hcs
          · left
            exact ⟨_, by
              rw [applyLoginReplyChildren, hpb]
              show (decrypt box k >>= _) = _
              rw [hdec]
              show (applyLoginReplyInner schild box.plain rchild >>= _) = _
              rw [hin]
              show (applyLoginReplyChildren k ss rs >>= _) = _
              rw [hcs]
              rfl⟩
          · right
            rw [applyLoginReplyChildren, hpb]
            show (decrypt box k >>= _) = _
            rw [hdec]
            show (applyLoginReplyInner schild box.plain rchild >>= _) = _
            rw [hin]
            show (applyLoginReplyChildren k ss rs >>= _) = _
            rw [hcs]
            rfl
        · right
          rw [applyLoginReplyChildren, hpb]
          show (decrypt box k >>= _) = _
          rw [hdec]
          show (applyLoginReplyInner schild box.plain rchild >>= _) = _
          rw [hin]
          rfl

end

mutual

/-- Under a clean reply, when the lost-children condition fails at every
reachable node pair, `applyLoginReplyInner` succeeds. -/
theorem applyInner_not_lost_clean :
    ∀ (r : StashNode) (k : Bytes) (s : StashNode),
      lostChildren s r = false → replyClean k r = true →
      ∃ out, applyLoginReplyInner s k r = .ok out
  | .mk rd rcs, k, s => by
    intro hlost hc
    cases rcs with
    | none =>
      rw [replyClean] at hc
      obtain ⟨hcp, hcr⟩ := Bool.and_eq_true_iff.mp hc
      have hlen : ¬ s.childrenD.length >
          ((none : Option (List StashNode)).getD []).length := by
        cases s with
        | mk sd scs =>
          cases scs with
          | none => simp [StashNode.childrenD]
          | some sl =>
            rw [lostChildren] at hlost
            have h1 := (Bool.or_eq_false_iff.mp hlost).1
            rw [decide_eq_false_iff_not] at h1
            simpa [StashNode.childrenD] using h1
      exact ⟨_, by
        rw [applyLoginReplyInner, pin2KeyDecrypt_clean hcp,
          recovery2KeyDecrypt_clean hcr]
        show (if s.childrenD.length >
            ((none : Option (List StashNode)).getD []).length then
          Except.error Err.serverLostChildren else _) = _
        rw [if_neg hlen]
        rfl⟩
    | some rl =>
      rw [replyClean] at hc
      obtain ⟨h12, hcc⟩ := Bool.and_eq_true_iff.mp hc
      obtain ⟨hcp, hcr⟩ := Bool.and_eq_true_iff.mp h12
      have hlen : ¬ s.childrenD.length >
          ((some rl : Option (List StashNode)).getD []).length := by
        cases s with
        | mk sd scs =>
          cases scs with
          | none => simp [StashNode.childrenD]
          | some sl =>
            rw [lostChildren] at hlost
            have h1 := (Bool.or_eq_false_iff.mp hlost).1
            rw [decide_eq_false_iff_not] at h1
            simpa [StashNode.childrenD] using h1
      have hzip : lostChildrenZip s.childrenD rl = false := by
        cases s with
        | mk sd scs =>
          cases scs with
          | none => rfl
          | some sl =>
            rw [lostChildren] at hlost
            exact (Bool.or_eq_false_iff.mp hlost).2
      obtain ⟨outs, houts⟩ := applyChildren_not_lost_clean rl k s.childrenD hzip hcc
      exact ⟨_, by
        rw [applyLoginReplyInner, pin2KeyDecrypt_clean hcp,
          recovery2KeyDecrypt_clean hcr]
        show (if s.childrenD.length >
            ((some rl : Option (List StashNode)).getD []).length then
          Except.error Err.serverLostChildren else _) = _
        rw [if_neg hlen]
        show (applyLoginReplyChildren k s.childrenD rl >>= _) = _
        rw [houts]
        rfl⟩

theorem applyChildren_not_lost_clean :
    ∀ (rc : List StashNode) (k : Bytes) (sc : List StashNode),
      lostChildrenZip sc rc = false → replyCleanChildren k rc = true →
      ∃ outs, applyLoginReplyChildren k sc rc = .ok outs
  | [], _, _ => fun _ _ => ⟨[], rfl⟩
  | rchild :: rs, k, sc => by
    intro hzip hc
    rw [replyCleanChildren] at hc
    obtain ⟨hhead, hrest⟩ := Bool.and_eq_true_iff.mp hc
    cases hpb : rchild.data.parentBox with
    | none =>
      rw [hpb] at hhead
      exact absurd hhead (by simp)
    | some box =>
      rw [hpb] at hhead
      obtain ⟨hk, hclean⟩ := Bool.and_eq_true_iff.mp hhead
      have hdec : decrypt box k = .ok box.plain := by
        rw [decrypt, if_pos (of_decide_eq_true hk)]
      cases sc with
      | nil =>
        obtain ⟨c, hin⟩ := applyInner_not_lost_clean rchild box.plain
          (.mk { appId := rchild.data.appId, loginId := rchild.data.loginId }
            none) rfl hclean
        obtain ⟨cs, hcs⟩ := applyChildren_not_lost_clean rs k [] rfl hrest
        exact ⟨_, by
          rw [applyLoginReplyChildren, hpb]
          show (decrypt box k >>= _) = _
          rw [hdec]
          show (applyLoginReplyInner
            (StashNode.mk
              { appId := rchild.data.appId, loginId := rchild.data.loginId }
              none) box.plain rchild >>= _) = _
          rw [hin]
          show (applyLoginReplyChildren k [] rs >>= _) = _
          rw [hcs]
          rfl⟩
      | cons schild ss =>
        rw [lostChildrenZip] at hzip
        obtain ⟨hz1, hz2⟩ := Bool.or_eq_false_iff.mp hzip
        obtain ⟨c, hin⟩ :=
          applyInner_not_lost_clean rchild box.plain schild hz1 hclean
        obtain ⟨cs, hcs⟩ := applyChildren_not_lost_clean rs k ss hz2 hrest
        exact ⟨_, by
          rw [applyLoginReplyChildren, hpb]
          show (decrypt box k >>= _) = _
          rw [hdec]
          show (applyLoginReplyInner schild box.plain rchild >>= _) = _
          rw [hin]
          show (applyLoginReplyChildren k ss rs >>= _) = _
          rw [hcs]
          rfl⟩

end

mutual

theorem applyReply_matchedLost :
    ∀ (s : StashNode) (k : Bytes) (r : StashNode), matchedLost s r = true →
      ∃ e, applyLoginReply s k r = .error e
  | .mk d none, k, r => by
    intro hm
    rw [matchedLost] at hm
    by_cases hp : (d.appId == r.data.appId) = true
    · rw [if_pos hp] at hm
      rw [lostChildren] at hm
      exact absurd hm (by simp)
    · rw [if_neg hp] at hm
      exact absurd hm (by simp)
  | .mk d (some l), k, r => by
    intro hm
    rw [matchedLost] at hm
    by_cases hp : (d.appId == r.data.appId) = true
    · rw [if_pos hp] at hm
      rw [applyLoginReply, updateTreeStashE_pred_true hp]
      cases hres : applyLoginReplyInner (.mk d (some l)) k r with
      | error e => exact ⟨e, rfl⟩
      | ok out =>
        rw [applyInner_ok_not_lost r k (.mk d (some l)) out hres] at hm
        exact absurd hm (by simp)
    · rw [if_neg hp] at hm
      obtain ⟨e, he⟩ := applyReplyList_matchedLost l k r hm
      refine ⟨e, ?_⟩
      rw [applyLoginReply, updateTreeStashE.eq_def]
      show (if (d.appId == r.data.appId) = true then _ else _) = _
      rw [if_neg hp]
      show (updateTreeStashEList _ _ l >>= _) = _
      rw [he]
      rfl

theorem applyReplyList_matchedLost :
    ∀ (l : List StashNode) (k : Bytes) (r : StashNode),
      matchedLostList l r = true →
      ∃ e, updateTreeStashEList
        (fun stash => stash.data.appId == r.data.appId)
        (fun stash => applyLoginReplyInner stash k r) l = .error e
  | [], k, r => by
    intro hm
    rw [matchedLostList] at hm
    exact absurd hm (by simp)
  | c :: cl, k, r => by
    intro hm
    rw [matchedLostList] at hm
    by_cases hc : matchedLost c r = true
    · obtain ⟨e, he⟩ := applyReply_matchedLost c k r hc
      refine ⟨e, ?_⟩
      rw [updateTreeStashEList]
      show (updateTreeStashE _ _ c >>= _) = _
      rw [show updateTreeStashE
        (fun stash => stash.data.appId == r.data.appId)
        (fun stash => applyLoginReplyInner stash k r) c = Except.error e from he]
      rfl
    · have hcl : matchedLostList cl r = true := by
        rcases Bool.or_eq_true_iff.mp hm with h1 | h1
        · exact absurd h1 hc
        · exact h1
      cases hres : updateTreeStashE
          (fun stash => stash.data.appId == r.data.appId)
          (fun stash => applyLoginReplyInner stash k r) c with
      | error e =>
        refine ⟨e, ?_⟩
        rw [updateTreeStashEList]
        show (updateTreeStashE _ _ c >>= _) = _
        rw [hres]
        rfl
      | ok c2 =>
        obtain ⟨e, he⟩ := applyReplyList_matchedLost cl k r hcl
        refine ⟨e, ?_⟩
        rw [updateTreeStashEList]
        show (updateTreeStashE _ _ c >>= _) = _
        rw [hres]
        show (updateTreeStashEList _ _ cl >>= _) = _
        rw [he]
        rfl

end

mutual

/-- A subtree whose walk-matched nodes all avoid the lost-children
condition is rebuilt successfully by the `updateTree` walk of
`applyLoginReply` (under a clean reply). -/
theorem applyWalk_not_lost_clean :
    ∀ (s : StashNode) (k : Bytes) (r : StashNode),
      matchedLost s r = false → replyClean k r = true →
      ∃ out, updateTreeStashE (fun stash => stash.data.appId == r.data.appId)
        (fun stash => applyLoginReplyInner stash k r) s = .ok out
  | .mk d none, k, r => by
    intro hm hc
    by_cases hp : (d.appId == r.data.appId) = true
    · obtain ⟨out, hout⟩ := applyInner_not_lost_clean r k (.mk d none) rfl hc
      exact ⟨out, by rw [updateTreeStashE_pred_true hp]; exact hout⟩
    · exact ⟨_, by
        rw [updateTreeStashE.eq_def]
        show (if (d.appId == r.data.appId) = true then _ else _) = _
        rw [if_neg hp]⟩
  | .mk d (some l), k, r => by
    intro hm hc
    rw [matchedLost] at hm
    by_cases hp : (d.appId == r.data.appId) = true
    · rw [if_pos hp] at hm
      obtain ⟨out, hout⟩ := applyInner_not_lost_clean r k (.mk d (some l)) hm hc
      exact ⟨out, by rw [updateTreeStashE_pred_true hp]; exact hout⟩
    · rw [if_neg hp] at hm
      obtain ⟨outs, houts⟩ := applyWalkList_not_lost_clean l k r hm hc
      exact ⟨_, by
        rw [updateTreeStashE.eq_def]
        show (if (d.appId == r.data.appId) = true then _ else _) = _
        rw [if_neg hp]
        show (updateTreeStashEList _ _ l >>= _) = _
        rw [show updateTreeStashEList
          (fun stash => stash.data.appId == r.data.appId)
          (fun stash => applyLoginReplyInner stash k r) l =
            Except.ok outs from houts]
        rfl⟩

theorem applyWalkList_not_lost_clean :
    ∀ (l : List StashNode) (k : Bytes) (r : StashNode),
      matchedLostList l r = false → replyClean k r = true →
      ∃ outs, updateTreeStashEList
        (fun stash => stash.data.appId == r.data.appId)
        (fun stash => applyLoginReplyInner stash k r) l = .ok outs
  | [], _, _ => fun _ _ => ⟨[], rfl⟩
  | c :: cl, k, r => by
    intro hm hc
    rw [matchedLostList] at hm
    obtain ⟨h1, h2⟩ := Bool.or_eq_false_iff.mp hm
    obtain ⟨c2, hc2⟩ := applyWalk_not_lost_clean c k r h1 hc
    obtain ⟨cs2, hcs2⟩ := applyWalkList_not_lost_clean cl k r h2 hc
    exact ⟨_, by
      rw [updateTreeStashEList]
      show (updateTreeStashE _ _ c >>= _) = _
      rw [show updateTreeStashE
        (fun stash => stash.data.appId == r.data.appId)
        (fun stash => applyLoginReplyInner stash k r) c =
          Except.ok c2 from hc2]
      show (updateTreeStashEList _ _ cl >>= _) = _
      rw [show updateTreeStashEList
        (fun stash => stash.data.appId == r.data.appId)
        (fun stash => applyLoginReplyInner stash k r) cl =
          Except.ok cs2 from hcs2]
      rfl⟩

end

mutual

/-- Under a clean reply, a subtree containing a walk-matched node with
lost children makes the `updateTree` walk of `applyLoginReply` fail with
`ServerLostChildren`, wherever in the tree that node sits. -/
theorem applyWalk_lost_clean :
    ∀ (s : StashNode) (k : Bytes) (r : StashNode),
      matchedLost s r = true → replyClean k r = true →
      updateTreeStashE (fun stash => stash.data.appId == r.data.appId)
        (fun stash => applyLoginReplyInner stash k r) s =
          .error .serverLostChildren
  | .mk d none, k, r => by
    intro hm hc
    rw [matchedLost] at hm
    by_cases hp : (d.appId == r.data.appId) = true
    · rw [if_pos hp] at hm
      rw [lostChildren] at hm
      exact absurd hm (by simp)
    · rw [if_neg hp] at hm
      exact absurd hm (by simp)
  | .mk d (some l), k, r => by
    intro hm hc
    rw [matchedLost] at hm
    by_cases hp : (d.appId == r.data.appId) = true
    · rw [if_pos hp] at hm
      rw [updateTreeStashE_pred_true hp]
      rcases applyInner_clean r k (.mk d (some l)) hc with ⟨out, hout⟩ | hout
      · rw [applyInner_ok_not_lost r k (.mk d (some l)) out hout] at hm
        exact absurd hm (by simp)
      · exact hout
    · rw [if_neg hp] at hm
      have hlist := applyWalkList_lost_clean l k r hm hc
      rw [updateTreeStashE.eq_def]
      show (if (d.appId == r.data.appId) = true then _ else _) = _
      rw [if_neg hp]
      show (updateTreeStashEList _ _ l >>= _) = _
      rw [show updateTreeStashEList
        (fun stash => stash.data.appId == r.data.appId)
        (fun stash => applyLoginReplyInner stash k r) l =
          Except.error Err.serverLostChildren from hlist]
      rfl

theorem applyWalkList_lost_clean :
    ∀ (l : List StashNode) (k : Bytes) (r : StashNode),
      matchedLostList l r = true → replyClean k r = true →
      updateTreeStashEList (fun stash => stash.data.appId == r.data.appId)
        (fun stash => applyLoginReplyInner stash k r) l =
          .error .serverLostChildren
  | [], k, r => by
    intro hm hc
    rw [matchedLostList] at hm
    exact absurd hm (by simp)
  | c :: cl, k, r => by
    intro hm hc
    rw [matchedLostList] at hm
    by_cases h1 : matchedLost c r = true
    · have hcw := applyWalk_lost_clean c k r h1 hc
      rw [updateTreeStashEList]
      show (updateTreeStashE _ _ c >>= _) = _
      rw [show updateTreeStashE
        (fun stash => stash.data.appId == r.data.appId)
        (fun stash => applyLoginReplyInner stash k r) c =
          Except.error Err.serverLostChildren from hcw]
      rfl
    · have hcl : matchedLostList cl r = true := by
        rcases Bool.or_eq_true_iff.mp hm with hx | hx
        · exact absurd hx h1
        · exact hx
      have h1f : matchedLost c r = false := by
        cases hmc : matchedLost c r with
        | true => exact absurd hmc h1
        | false => rfl
      obtain ⟨c2, hc2⟩ := applyWalk_not_lost_clean c k r h1f hc
      have hclw := applyWalkList_lost_clean cl k r hcl hc
      rw [updateTreeStashEList]
      show (updateTreeStashE _ _ c >>= _) = _
      rw [show updateTreeStashE
        (fun stash => stash.data.appId == r.data.appId)
        (fun stash => applyLoginReplyInner stash k r) c =
          Except.ok c2 from hc2]
      show (updateTreeStashEList _ _ cl >>= _) = _
      rw [show updateTreeStashEList
        (fun stash => stash.data.appId == r.data.appId)
        (fun stash => applyLoginReplyInner stash k r) cl =
          Except.error Err.serverLostChildren from hclw]
      rfl

end

/-- C2 (amended): whenever, at any depth of a subtree that
`applyLoginReply`'s walk matches against the reply — the matched node may
sit anywhere in the stash tree, not only at its root — the stash node has
more children than the positionally-corresponding reply node,
`applyLoginReply` fails; and the error is exactly `ServerLostChildren`
provided every decryption in the reply subtree succeeds and every
traversed reply child carries a `parentBox` (otherwise a `KeyIntegrity`
or decryption error raised while iterating earlier children can preempt
it).  The reconciler never mutates its input: it is a pure function
returning a fresh tree. -/
theorem c2_lostChildren_spec (s : StashNode) (k : Bytes) (r : StashNode) :
    (matchedLost s r = true → ∃ e, applyLoginReply s k r = .error e) ∧
    (matchedLost s r = true → replyClean k r = true →
      applyLoginReply s k r = .error .serverLostChildren) := by
  constructor
  · exact applyReply_matchedLost s k r
  · intro hm hclean
    rw [applyLoginReply]
    exact applyWalk_lost_clean s k r hm hclean

def c2Stash : StashNode :=
  .mk { appId := some "", loginId := some "R" }
    (some [.mk { appId := some "a", loginId := some "i0" }
      (some [.mk {} none])])

def c2Reply : StashNode :=
  .mk { appId := some "", loginId := some "R" }
    (some [.mk { appId := some "a", loginId := some "i0" } none])

/-- C2 counterexample: the lost-children condition holds one level down
(the stash child has a child, the reply child has none), but the reply
child carries no `parentBox`, so the call fails with `KeyIntegrity`, not
`ServerLostChildren`. -/
theorem c2_counterexample :
    matchedLost c2Stash c2Reply = true ∧
    applyLoginReply c2Stash [0] c2Reply = .error .keyIntegrity ∧
    Err.keyIntegrity ≠ Err.serverLostChildren := by
  exact ⟨rfl, rfl, by decide⟩

def c2wStash : StashNode :=
  .mk { appId := some "", loginId := some "R" }
    (some [.mk { appId := some "a", loginId := some "i0" }
      (some [.mk {} none])])

def c2wReply : StashNode := .mk { appId := some "a", loginId := some "i0" } none

/-- Witness for C2 with the match below the root: the reply targets the
child appId, the matched child has one grandchild the childless clean
reply lacks, and the call fails with `ServerLostChildren`. -/
theorem c2_witness :
    (∃ e, applyLoginReply c2wStash [0] c2wReply = .error e) ∧
    applyLoginReply c2wStash [0] c2wReply = .error .serverLostChildren := by
  have h := c2_lostChildren_spec c2wStash [0] c2wReply
  exact ⟨h.1 rfl, h.2 rfl rfl⟩

/-! ## Claim C4 — loginId round trip (corrected)

`makeLoginTree` returns the root of the whole tree.  When the reply's
`appId` names a non-root node, the reconciled node sits deeper in the tree
and the returned root is the outer clone of the original root, so the
root's `loginId` — not the reply's — is what the caller sees.  The claimed
identity holds exactly when the match is at the root. -/

theorem loginAuthStep_ids {b : Option EdgeBox} {k : Bytes} {l l2 : LoginData}
    (h : loginAuthStep b k l = .ok l2) :
    l2.loginId = l.loginId ∧ l2.appId = l.appId := by
  cases b with
  | none =>
    cases h
    exact ⟨rfl, rfl⟩
  | some box =>
    have h2 : (decrypt box k >>= fun loginAuth =>
        Except.ok { l with loginAuth := some loginAuth }) = .ok l2 := h
    obtain ⟨pt, hdec, hok⟩ := except_bind_ok h2
    cases hok
    exact ⟨rfl, rfl⟩

theorem passwordAuthStep_ids {b : Option EdgeBox} {k : Bytes}
    {sid : Option String} {l l2 : LoginData}
    (h : passwordAuthStep b k sid l = .ok l2) :
    l2.loginId = l.loginId ∧ l2.appId = l.appId := by
  cases b with
  | none =>
    cases h
    exact ⟨rfl, rfl⟩
  | some box =>
    have h2 : (decrypt box k >>= fun passwordAuth =>
        Except.ok { (if l.userId = none then { l with userId := sid } else l)
          with passwordAuth := some passwordAuth }) = .ok l2 := h
    obtain ⟨pt, hdec, hok⟩ := except_bind_ok h2
    cases hok
    constructor
    · by_cases hu : l.userId = none
      · rw [if_pos hu]
      · rw [if_neg hu]
    · by_cases hu : l.userId = none
      · rw [if_pos hu]
      · rw [if_neg hu]

theorem pin2KeyParseStep_ids {s : Option String} {l l2 : LoginData}
    (h : pin2KeyParseStep s l = .ok l2) :
    l2.loginId = l.loginId ∧ l2.appId = l.appId := by
  cases s with
  | none =>
    cases h
    exact ⟨rfl, rfl⟩
  | some str =>
    have h2 : (match b64parse str with
      | none => Except.error Err.badBase64
      | some bs => Except.ok { l with pin2Key := some bs }) = .ok l2 := h
    cases hp : b64parse str with
    | none =>
      rw [hp] at h2
      exact absurd h2 (by simp)
    | some bs =>
      rw [hp] at h2
      cases h2
      exact ⟨rfl, rfl⟩

theorem pinTextStep_ids {b : Option EdgeBox} {k : Bytes} {l l2 : LoginData}
    (h : pinTextStep b k l = .ok l2) :
    l2.loginId = l.loginId ∧ l2.appId = l.appId := by
  cases b with
  | none =>
    cases h
    exact ⟨rfl, rfl⟩
  | some box =>
    have h2 : (decryptText box k >>= fun pin =>
        Except.ok { l with pin := some pin }) = .ok l2 := h
    obtain ⟨pt, hdec, hok⟩ := except_bind_ok h2
    cases hok
    exact ⟨rfl, rfl⟩

theorem recovery2KeyParseStep_ids {s : Option String} {l l2 : LoginData}
    (h : recovery2KeyParseStep s l = .ok l2) :
    l2.loginId = l.loginId ∧ l2.appId = l.appId := by
  cases s with
  | none =>
    cases h
    exact ⟨rfl, rfl⟩
  | some str =>
    have h2 : (match b64parse str with
      | none => Except.error Err.badBase64
      | some bs => Except.ok { l with recovery2Key := some bs }) = .ok l2 := h
    cases hp : b64parse str with
    | none =>
      rw [hp] at h2
      exact absurd h2 (by simp)
    | some bs =>
      rw [hp] at h2
      cases h2
      exact ⟨rfl, rfl⟩

/-- `makeLoginTreeInner` copies `loginId` and `appId` from its stash node. -/
theorem makeInner_ids (s : StashNode) (k : Bytes) (now : JsDate)
    (tree : LoginNode) (h : makeLoginTreeInner s k now = .ok tree) :
    tree.data.loginId = s.data.loginId ∧ tree.data.appId = s.data.appId := by
  cases s with
  | mk d cs =>
    rw [makeLoginTreeInner] at h
    obtain ⟨l1, h1, h⟩ := except_bind_ok h
    obtain ⟨l2, h2, h⟩ := except_bind_ok h
    by_cases hauth : l2.loginAuth = none ∧ l2.passwordAuth = none
    · rw [if_pos hauth] at h
      exact absurd h (by simp)
    · rw [if_neg hauth] at h
      obtain ⟨l3, h3, h⟩ := except_bind_ok h
      obtain ⟨l4, h4, h⟩ := except_bind_ok h
      obtain ⟨l5, h5, h⟩ := except_bind_ok h
      obtain ⟨leg1, hleg1, h⟩ := except_bind_ok h
      obtain ⟨leg2, hleg2, h⟩ := except_bind_ok h
      obtain ⟨parsed, hparsed, h⟩ := except_bind_ok h
      obtain ⟨children, hch, h⟩ := except_bind_ok h
      cases h
      have i1 := loginAuthStep_ids h1
      have i2 := passwordAuthStep_ids h2
      have i3 := pin2KeyParseStep_ids h3
      have i4 := pinTextStep_ids h4
      have i5 := recovery2KeyParseStep_ids h5
      constructor
      · show l5.loginId = d.loginId
        rw [i5.1, i4.1, i3.1, i2.1, i1.1]
      · show l5.appId = d.appId
        rw [i5.2, i4.2, i3.2, i2.2, i1.2]

/-- C4 (amended): the identity
`makeLoginTree(applyLoginReply(stash, k, r), k, r.appId).loginId = r.loginId`
holds when the reconciled node is the root (the root's `appId` equals
`r.appId`); for a deeper match the returned root keeps the original root's
`loginId`. -/
theorem c4_loginId_roundtrip (stashTree : StashNode) (k : Bytes)
    (r : StashNode) (a : String) (now : JsDate) (t : StashNode)
    (tree : LoginNode)
    (hroot : stashTree.data.appId = r.data.appId)
    (happ : r.data.appId = some a)
    (h1 : applyLoginReply stashTree k r = .ok t)
    (h2 : makeLoginTree t k a now = .ok tree) :
    tree.data.loginId = r.data.loginId := by
  rw [applyLoginReply, updateTreeStashE_pred_true (by simp [hroot])] at h1
  have hf := applyLoginReplyInner_fields stashTree k r t h1
  have htapp : t.data.appId = some a := by rw [hf.1, happ]
  have htlid : t.data.loginId = r.data.loginId := hf.2.2.1
  rw [makeLoginTree, updateTreeMakeLogin_pred_true (by simp [htapp])] at h2
  have hids := makeInner_ids t k now tree h2
  rw [hids.1, htlid]

def c4Key : Bytes := [4]

def c4AuthBox : EdgeBox := { boxKey := c4Key, plain := [7] }

def c4Child : StashNode :=
  .mk { appId := some "app", loginId := some "CHILD-OLD" } none

def c4Stash : StashNode :=
  .mk { appId := some "", loginId := some "ROOT", username := some "bob" }
    (some [c4Child])

def c4Reply : StashNode :=
  .mk { appId := some "app", loginId := some "CHILD-NEW",
        loginAuthBox := some c4AuthBox } none

/-- C4 counterexample: with `r.appId = "app"` matching a child, both
operations succeed, yet the returned tree's `loginId` is the root's
`"ROOT"`, not the reply's `"CHILD-NEW"`. -/
theorem c4_counterexample :
    ((applyLoginReply c4Stash c4Key c4Reply).bind fun t =>
        makeLoginTree t c4Key "app" 0).map (fun tree => tree.data.loginId) =
      .ok (some "ROOT") ∧
    c4Reply.data.loginId = some "CHILD-NEW" ∧
    (some "ROOT" : Option String) ≠ some "CHILD-NEW" := by
  exact ⟨rfl, rfl, by decide⟩

def c4wStash : StashNode :=
  .mk { appId := some "", loginId := some "ROOT", username := some "bob" } none

def c4wReply : StashNode :=
  .mk { appId := some "", loginId := some "NEW",
        loginAuthBox := some c4AuthBox } none

def c4wT : StashNode :=
  .mk { appId := some "", loginId := some "NEW", username := some "bob",
        loginAuthBox := some c4AuthBox, keyBoxes := some [] } (some [])

def c4wTree : LoginNode :=
  .mk { appId := some "", lastLogin := some 0, loginId := some "NEW",
        username := some "bob", loginKey := some c4Key,
        loginAuth := some [7], keyInfos := some [] } []

/-- Witness for C4 at a root-matching reply. -/
theorem c4_witness : c4wTree.data.loginId = c4wReply.data.loginId :=
  c4_loginId_roundtrip c4wStash c4Key c4wReply "" 0 c4wT c4wTree rfl rfl rfl rfl

/-! ## Claim C10 — the undocumented root-username requirement (corrected)

Both operations do fail without a root username and without any server
request or state write, but `applyKit` checks `MissingLogin` first: when
the kit's `loginId` is not in the tree the error is `MissingLogin`, not
the missing-username error the claim names. -/

def c10Tree : LoginNode := .mk { loginId := some "x", loginAuth := some [1] } []

def c10Kit : LoginKit := { loginId := "x" }

def c10BadKit : LoginKit := { loginId := "y" }

def c10Fetch : Fetch := fun _ _ _ => .ok (.mk {} none)

def c10Stashes : GetStash := fun _ => .mk {} none

/-- C10 counterexample: with the root username missing and a kit whose
`loginId` is absent from the tree, `applyKit` fails with `MissingLogin`
rather than the "missing username" error. -/
theorem c10_counterexample :
    usernameOk c10Tree.data.username = false ∧
    applyKit c10Fetch c10Stashes reliableSetText [] c10Tree c10BadKit =
      .error .missingLogin ∧
    Err.missingLogin ≠ Err.missingUsername :=
  ⟨rfl, rfl, by decide⟩

/-- C10 (amended): for every login tree whose root `username` is undefined
or empty, `syncLogin` fails with the "Cannot sync: missing username" error
and `applyKit` fails — with "Cannot apply kit: missing username" whenever
the kit's target `loginId` is found (the missing-login check precedes the
username check) — and in all these cases no server request is made (the
result is `fetch`-independent) and no state is produced. -/
theorem c10_missing_username_spec (fetch : Fetch) (stashes : GetStash)
    (setText : SetText) (disk : Disk) (loginTree login : LoginNode)
    (kit : LoginKit) (now : JsDate)
    (husername : usernameOk loginTree.data.username = false) :
    (syncLogin fetch stashes setText disk loginTree login now =
        .error .syncMissingUsername ∧
      ∀ fetch2, syncLogin fetch2 stashes setText disk loginTree login now =
        syncLogin fetch stashes setText disk loginTree login now) ∧
    ((∃ e, applyKit fetch stashes setText disk loginTree kit = .error e) ∧
      (∀ fetch2, applyKit fetch2 stashes setText disk loginTree kit =
        applyKit fetch stashes setText disk loginTree kit) ∧
      (∀ target,
        searchTree (fun l => l.data.loginId == some kit.loginId) loginTree
          = some target →
        applyKit fetch stashes setText disk loginTree kit =
          .error .missingUsername)) := by
  constructor
  · constructor
    · rw [syncLogin, if_pos husername]
    · intro fetch2
      rw [syncLogin, if_pos husername, syncLogin, if_pos husername]
  · cases hsearch : searchTree (fun l => l.data.loginId == some kit.loginId)
      loginTree with
    | none =>
      refine ⟨⟨.missingLogin, by rw [applyKit, hsearch]⟩, ?_, ?_⟩
      · intro fetch2
        rw [applyKit, hsearch, applyKit, hsearch]
      · intro target ht
        exact absurd ht (by simp)
    | some target0 =>
      have happ : ∀ fetch3 : Fetch,
          applyKit fetch3 stashes setText disk loginTree kit =
            .error .missingUsername := by
        intro fetch3
        rw [applyKit, hsearch]
        show (if usernameOk loginTree.data.username = false then
          Except.error Err.missingUsername else _) = _
        rw [if_pos husername]
      refine ⟨⟨.missingUsername, happ fetch⟩, ?_, fun target ht => happ fetch⟩
      intro fetch2
      rw [happ fetch, happ fetch2]

/-- Witness for C10 at a one-node tree without a username. -/
theorem c10_witness :
    syncLogin c10Fetch c10Stashes reliableSetText [] c10Tree c10Tree 0 =
      .error .syncMissingUsername ∧
    applyKit c10Fetch c10Stashes reliableSetText [] c10Tree c10Kit =
      .error .missingUsername := by
  have h := c10_missing_username_spec c10Fetch c10Stashes reliableSetText []
    c10Tree c10Tree c10Kit 0 rfl
  exact ⟨h.1.1, h.2.2.2 c10Tree rfl⟩
